import Mathlib

/-!
Verification development for the EELS backend of eth-tester
(`eth_tester/backends/eels/main.py`).

The Python source is shallowly embedded below.  Machine integers are
modelled as `Nat` (all quantities involved are non-negative and no claim
depends on fixed-width overflow), byte strings and 32-byte hashes as `Nat`
identifiers, and Python dicts as association lists.  External collaborators
(the EELS execution primitives: `keccak`-based header hashing,
`check_transaction`, `process_transaction`, `process_message`,
`calculate_total_blob_gas`, base-fee and excess-blob-gas helpers, trie
roots) are collected in an `Ext` record of function parameters; every
theorem is universally quantified over them, and witnesses instantiate
them concretely.  Fallible Python code (raising `ValidationError`,
`BlockNotFound`, `TransactionFailed`, `EthereumException`, ...) is
modelled with `Except BErr`.
-/

namespace EELS

/-- A transaction is opaque to the chain engine; it is identified by a
`Nat` and interpreted only through the external `Ext` primitives. -/
abbrev Tx := Nat

/-- `ethereum.<fork>.fork_types.Account`: nonce, balance, code. -/
structure Account where
  nonce : Nat
  balance : Nat
  code : List Nat
deriving Repr, DecidableEq, Inhabited

/-- `ethereum.<fork>.state.State`: the main account trie plus the storage
tries, modelled as association lists 'address -> account' and
'(address, slot) -> value'. -/
structure EState where
  accounts : List (Nat × Account)
  storage : List ((Nat × Nat) × Nat)
deriving Repr, DecidableEq, Inhabited

/-- `get_account` of EELS: missing accounts read as the empty account. -/
def getAccount (s : EState) (addr : Nat) : Account :=
  (s.accounts.lookup addr).getD { nonce := 0, balance := 0, code := [] }

/-- `get_storage` of EELS: missing slots read as zero. -/
def getStorageSlot (s : EState) (addr slot : Nat) : Nat :=
  (s.storage.lookup (addr, slot)).getD 0

/-- A mined block header (`ethereum.<fork>.blocks.Header`), restricted to
the fields the embedded operations read. -/
structure Header where
  parent_hash : Nat
  number : Nat
  timestamp : Nat
  gas_limit : Nat
  gas_used : Nat
  base_fee_per_gas : Nat
  coinbase : Nat
  prev_randao : Nat
  difficulty : Nat
  excess_blob_gas : Nat
  blob_gas_used : Nat
  state_root : Nat
  transactions_root : Nat
  receipt_root : Nat
deriving Repr, DecidableEq, Inhabited

/-- `ethereum.<fork>.blocks.Block` (ommers are always empty in this
backend and withdrawals do not appear in any claim). -/
structure Block where
  header : Header
  transactions : List Tx
deriving Repr, DecidableEq, Inhabited

/-- `ethereum.<fork>.fork.BlockChain`. -/
structure Chain where
  blocks : List Block
  state : EState
  chain_id : Nat
deriving Repr, DecidableEq, Inhabited

/-- `EELSBlockChain.latest_block`, i.e. `self.blocks[-1]`. -/
def Chain.latest_block (c : Chain) : Block :=
  c.blocks.getLastD default

/-- The mutable header-field dict of `self._pending_block["header"]`.
`timestamp` is `Option Nat` because the Python dict stores `None` until
`time_travel` or mining assigns it. -/
structure PendingHeader where
  number : Nat
  coinbase : Nat
  difficulty : Nat
  gas_limit : Nat
  timestamp : Option Nat
  prev_randao : Nat
  parent_hash : Nat
  base_fee_per_gas : Nat
  excess_blob_gas : Nat
deriving Repr, DecidableEq, Inhabited

/-- `self._pending_block`. -/
structure PendingBlock where
  header : PendingHeader
  transactions : List Tx
  withdrawals : List Nat
deriving Repr, DecidableEq, Inhabited

/-- The mutable state of an `EELSBackend` instance: the chain, the pending
block (`None` before the first `_build_new_pending_block`), and
`self._state_history` (block number -> state snapshot). -/
structure Backend where
  chain : Chain
  pending : Option PendingBlock
  state_history : List (Nat × EState)
deriving Repr, DecidableEq, Inhabited

/-- Error taxonomy of the backend (`eth_tester.exceptions` plus the EELS
`EthereumException` family and Python-level errors). -/
inductive BErr where
  | validationError (msg : String)
  | blockNotFound (msg : String)
  | transactionNotFound (msg : String)
  | transactionFailed (msg : String)
  | ethereumException (msg : String)
  | valueError (msg : String)
  | internalError (msg : String)
deriving Repr, DecidableEq

/-- The EVM-level error reported by `process_message` (`evm.error`):
either a `Revert` or some other interpreter exception. -/
inductive EvmErr where
  | revert
  | otherErr (msg : String)
deriving Repr, DecidableEq

/-- External collaborators consumed by the backend (EELS fork module
functions and crypto primitives).  They are parameters of the model:
every theorem below holds for an arbitrary `Ext`. -/
structure Ext where
  /-- `compute_header_hash` (keccak of the RLP-encoded header). -/
  hashHeader : Header → Nat
  /-- `check_transaction(state, tx, gas_available, ...)` viewed as a
  success flag: `false` means it raises (an `EthereumException`). -/
  checkTx : EState → Tx → Nat → Bool
  /-- `process_transaction(env, tx)`: post-state, gas consumed, logs;
  `none` models a recoverable execution-layer exception raised before
  mutating the state. -/
  procTx : EState → Tx → Option (EState × Nat × List Nat)
  /-- `process_message` used by `call`: post-state, output bytes,
  optional EVM error.  On an error EELS rolls the state back, so the
  post-state component is only committed when the error is `none`. -/
  procMsg : EState → Tx → EState × List Nat × Option EvmErr
  /-- `calculate_total_blob_gas(tx)`. -/
  blobGas : Tx → Nat
  /-- The pre-block beacon-roots system call of Cancun
  (`process_message_call` on the beacon contract followed by
  `destroy_touched_empty_accounts`), as a state transformer. -/
  systemTx : EState → EState
  /-- `calculate_base_fee_per_gas(gas_limit, parent_gas_limit,
  parent_gas_used, parent_base_fee)`. -/
  baseFee : Nat → Nat → Nat → Nat → Nat
  /-- `calculate_excess_blob_gas(parent_header)`. -/
  excessBlob : Header → Nat
  /-- `state_root(state)`. -/
  stateRoot : EState → Nat
  /-- `root(transactions_trie)`. -/
  txRoot : List (Nat × Tx) → Nat
  /-- `root(receipts_trie)` (receipts modelled as (tx, cumulative gas)). -/
  rcptRoot : List (Nat × (Tx × Nat)) → Nat
  /-- `logs_bloom(block_logs)`. -/
  logsBloom : List Nat → Nat
  /-- Python `str(evm.output)` used for non-empty revert payloads. -/
  reprOutput : List Nat → String

/-- `MAX_BLOB_GAS_PER_BLOCK` of the Cancun fork. -/
def MAX_BLOB_GAS_PER_BLOCK : Nat := 786432

/-- `GENESIS_GAS_LIMIT`. -/
def GENESIS_GAS_LIMIT : Nat := 30029122

/-- `ZERO_HASH32 = b"\x00" * 32`, as a `Nat` hash value. -/
def ZERO_HASH32 : Nat := 0

/-- `BEACON_ROOTS_CONTRACT_ADDRESS` (an abstract address constant). -/
def BEACON_ROOTS_CONTRACT_ADDRESS : Nat := 1000

--------------------------------------------------------------------------
-- Snapshot API
--------------------------------------------------------------------------

/-- `_generate_state_snapshot`: deep copy of the live state.  In the pure
embedding a copy is the value itself; the aliasing distinctions of the
Python original are modelled at each use site by whether updates are
written back. -/
def generate_state_snapshot (b : Backend) : EState :=
  b.chain.state

/-- `take_snapshot`: the latest block number is the snapshot token. -/
def take_snapshot (b : Backend) : Nat :=
  b.chain.latest_block.header.number

/-- `revert_to_snapshot(block_number)`: `ValidationError` when the block
number has no recorded snapshot; otherwise set the live state to the
snapshot and truncate `chain.blocks` to `block_number + 1` entries.
(The source does not touch `self._state_history`.) -/
def revert_to_snapshot (b : Backend) (block_number : Nat) : Except BErr Backend :=
  match b.state_history.lookup block_number with
  | none => .error (.validationError "No snapshot found for block number.")
  | some s =>
      .ok { b with chain := { b.chain with
              state := s,
              blocks := b.chain.blocks.take (block_number + 1) } }

/-- `_get_state_for_block_number(block_number)`.  Block-number arguments
of the public API. -/
inductive BlockId where
  | latest
  | pending
  | earliest
  | safe
  | finalized
  | num (n : Nat)
deriving Repr, DecidableEq

/-- `_get_state_for_block_number`: "latest"/"safe"/"finalized" read the
snapshot of the head, "pending" takes a fresh scratch snapshot,
"earliest" is block 0, an explicit number is looked up in
`_state_history` and `ValidationError` is raised when absent. -/
def get_state_for_block_number (b : Backend) (block_number : BlockId) :
    Except BErr EState :=
  match block_number with
  | .latest | .safe | .finalized =>
      match b.state_history.lookup b.chain.latest_block.header.number with
      | some s => .ok s
      | none => .error (.internalError "KeyError")
  | .pending => .ok (generate_state_snapshot b)
  | .earliest =>
      match b.state_history.lookup 0 with
      | some s => .ok s
      | none => .error (.validationError "No state snapshot found for block number.")
  | .num n =>
      match b.state_history.lookup n with
      | some s => .ok s
      | none => .error (.validationError "No state snapshot found for block number.")

--------------------------------------------------------------------------
-- Account state queries
--------------------------------------------------------------------------

/-- `get_nonce(account, block_number="latest")`: the source reads
`self.chain.state` and ignores `block_number` entirely. -/
def get_nonce (b : Backend) (account : Nat) (_block_number : BlockId) : Nat :=
  (getAccount b.chain.state account).nonce

/-- `get_balance(account, block_number="latest")`: the source reads
`self.chain.state` and ignores `block_number` entirely. -/
def get_balance (b : Backend) (account : Nat) (_block_number : BlockId) : Nat :=
  (getAccount b.chain.state account).balance

/-- `get_code(account, block_number="latest")`: the source reads
`self.chain.state` and ignores `block_number` entirely. -/
def get_code (b : Backend) (account : Nat) (_block_number : BlockId) : List Nat :=
  (getAccount b.chain.state account).code

/-- `get_storage(account, slot, block_number="latest")`: the source has a
`TODO: block_number` comment and reads `self.chain.state`. -/
def get_storage (b : Backend) (account slot : Nat) (_block_number : BlockId) : Nat :=
  getStorageSlot b.chain.state account slot

--------------------------------------------------------------------------
-- Execution environment builder
--------------------------------------------------------------------------

/-- `self._max_available_gas()`. -/
def max_available_gas (b : Backend) : Nat :=
  b.chain.latest_block.header.gas_limit - b.chain.latest_block.header.gas_used

/-- A Python dict with `Nat` values (a stored value of `none` models the
Python value `None`, as in the pending header's unset `timestamp`). -/
abbrev PyDict := List (String × Option Nat)

/-- Python `d.get(k, default)`. -/
def dictGet (d : PyDict) (k : String) (dflt : Option Nat) : Option Nat :=
  match d.find? (fun p => p.1 == k) with
  | some p => p.2
  | none => dflt

/-- Python `d[k]` for a key known to be present (missing keys would raise
`KeyError`; every indexed access in the source is on a present key, so the
`0` fallback is never reached). -/
def dictIdx (d : PyDict) (k : String) : Nat :=
  ((dictGet d k none).getD 0)

/-- The key/value pairs of `self._pending_block["header"]` that the
environment builder can observe (mirrors `_build_new_pending_block`;
`extra_data`, `nonce` and `parent_beacon_block_root` are never read by
`synthetic_tx_environment` and carry opaque values here). -/
def pendingHeaderDict (ph : PendingHeader) : PyDict :=
  [("number", some ph.number),
   ("coinbase", some ph.coinbase),
   ("difficulty", some ph.difficulty),
   ("gas_limit", some ph.gas_limit),
   ("timestamp", ph.timestamp),
   ("extra_data", some 0),
   ("prev_randao", some ph.prev_randao),
   ("nonce", some 0),
   ("parent_hash", some ph.parent_hash),
   ("base_fee_per_gas", some ph.base_fee_per_gas),
   ("parent_beacon_block_root", some 0),
   ("excess_blob_gas", some ph.excess_blob_gas)]

/-- The dict built by the historical branch of
`synthetic_tx_environment`: note the header timestamp is stored under the
key "time" and there is no "timestamp" key. -/
def historicalHeaderDict (h : Header) : PyDict :=
  [("coinbase", some h.coinbase),
   ("number", some h.number),
   ("gas_limit", some h.gas_limit),
   ("gas_used", some h.gas_used),
   ("time", some h.timestamp),
   ("prev_randao", some h.prev_randao),
   ("difficulty", some h.difficulty),
   ("base_fee_per_gas", some h.base_fee_per_gas),
   ("excess_blob_gas", some h.excess_blob_gas)]

/-- The EELS Cancun `vm.Environment`, restricted to the fields the claims
mention (`block_hashes`, fee/blob parameters returned by
`check_transaction`, caller/origin and traces are irrelevant to every
claim and omitted). -/
structure Environment where
  state : EState
  number : Nat
  coinbase : Nat
  gas_limit : Nat
  time : Option Nat
  prev_randao : Nat
  base_fee_per_gas : Nat
  excess_blob_gas : Nat
  chain_id : Nat
deriving Repr, DecidableEq

/-- Python `block_number or self.chain.latest_block.header.number`:
`None` and `0` are both falsy. -/
def pyOrHead (block_number : Option Nat) (head : Nat) : Nat :=
  match block_number with
  | none => head
  | some k => if k = 0 then head else k

/-- `synthetic_tx_environment(tx, state=..., block_number=...)`.

Besides the environment it returns the block number of the
`_state_history` entry the environment's state aliases (`some k` in the
historical branch) — in the Python original `env.state` *is* the stored
snapshot object there, while the live branch works on a fresh copy.  The
second component makes that aliasing explicit so callers can model
writes through it. -/
def synthetic_tx_environment (E : Ext) (b : Backend) (tx : Tx)
    (state : Option EState) (block_number : Option Nat) (now : Nat) :
    Except BErr (Environment × Option Nat) := do
  let head := b.chain.latest_block.header.number
  let branch ←
    if block_number = none ∨ block_number = some head then do
      if block_number = none ∧ state = none then
        throw (.validationError
          "Must specify either state or block_number for the transaction.")
      let st := state.getD (generate_state_snapshot b)
      match b.pending with
      | none => throw (.internalError "no pending block")
      | some pb =>
          pure (st, pendingHeaderDict pb.header, max_available_gas b, none)
    else do
      if state.isSome then
        throw (.validationError "Cannot provide both state and block_number.")
      let k := block_number.getD 0
      match b.state_history.lookup k with
      | none => throw (.validationError "No state snapshot found for block number.")
      | some st =>
          let truncated : Chain :=
            { blocks := b.chain.blocks.take (k + 1),
              state := st,
              chain_id := b.chain.chain_id }
          let hdr := truncated.latest_block.header
          pure (st, historicalHeaderDict hdr,
                dictIdx (historicalHeaderDict hdr) "gas_limit"
                  - dictIdx (historicalHeaderDict hdr) "gas_used",
                some k)
  let (st, hdrDict, gas_available, aliased) := branch
  if E.checkTx b.chain.state tx gas_available = false then
    throw (.ethereumException "InvalidBlock")
  let env : Environment :=
    { state := st,
      number := pyOrHead block_number head,
      coinbase := dictIdx hdrDict "coinbase",
      gas_limit := dictIdx hdrDict "gas_limit",
      time := dictGet hdrDict "timestamp" (some now),
      prev_randao := dictIdx hdrDict "prev_randao",
      base_fee_per_gas := dictIdx hdrDict "base_fee_per_gas",
      excess_blob_gas := dictIdx hdrDict "excess_blob_gas",
      chain_id := b.chain.chain_id }
  pure (env, aliased)

--------------------------------------------------------------------------
-- Importing blocks: _internal_apply_body_validation
--------------------------------------------------------------------------

/-- Python dict assignment `d[k] = v` on an association list: overwrite
the entry in place or append a new one. -/
def updateAssoc {α : Type} : List (Nat × α) → Nat → α → List (Nat × α)
  | [], k, v => [(k, v)]
  | p :: rest, k, v =>
      if p.1 = k then (k, v) :: rest else p :: updateAssoc rest k v

/-- The loop state of `_internal_apply_body_validation`: the scratch
state, remaining gas, accumulated blob gas, the transactions and receipts
tries (keyed by transaction index, receipts modelled as
(tx, cumulative gas)), `apply_body_output_dict["receipts_map"]` (keyed by
transaction hash; `_get_tx_hash` is an external injective keccak and the
model keys the dict by the transaction itself), the accumulated logs, and
the indices of transactions dropped by the `except` clause (the source
records those only through `logger.warning`; the list makes them
observable). -/
structure BodyAcc where
  state : EState
  gas_available : Nat
  blob_gas_used : Nat
  transactions_trie : List (Nat × Tx)
  receipts_trie : List (Nat × (Tx × Nat))
  receipts_map : List (Nat × (Tx × Nat))
  block_logs : List Nat
  excluded : List Nat
deriving Repr, DecidableEq

/-- One iteration of the transaction loop of
`_internal_apply_body_validation` for the indexed transaction `(i, tx)`:
build the synthetic environment (whose `check_transaction` may raise),
run `process_transaction`, accumulate blob gas and fail if it exceeds the
per-block ceiling; any `EthereumException`/`ValidationError` is caught,
the transaction is skipped, and the loop continues.  On success the
transaction and a receipt are inserted into the tries under index `i`,
the serialized pending receipt is stored in `receipts_map` under the
transaction's hash, and its gas is charged.  An excluded transaction gets
*no* `receipts_map` entry.  Note that when the blob ceiling check fails,
the state mutations of `process_transaction` and the blob-gas
accumulation have already happened and are not rolled back, exactly as in
the source. -/
def bodyStep (E : Ext) (b : Backend) (gas_limit now : Nat)
    (acc : BodyAcc) (itx : Nat × Tx) : BodyAcc :=
  let (i, tx) := itx
  match synthetic_tx_environment E b tx (some acc.state) none now with
  | .error _ => { acc with excluded := acc.excluded ++ [i] }
  | .ok _ =>
    match E.procTx acc.state tx with
    | none => { acc with excluded := acc.excluded ++ [i] }
    | some (st, gas_consumed, logs) =>
      let blob := acc.blob_gas_used + E.blobGas tx
      if MAX_BLOB_GAS_PER_BLOCK < blob then
        { acc with state := st, blob_gas_used := blob,
                   excluded := acc.excluded ++ [i] }
      else
        { state := st,
          gas_available := acc.gas_available - gas_consumed,
          blob_gas_used := blob,
          transactions_trie := acc.transactions_trie ++ [(i, tx)],
          receipts_trie := acc.receipts_trie ++
            [(i, (tx, gas_limit - (acc.gas_available - gas_consumed)))],
          receipts_map := updateAssoc acc.receipts_map tx
            (tx, gas_limit - (acc.gas_available - gas_consumed)),
          block_logs := acc.block_logs ++ logs,
          excluded := acc.excluded }

/-- The initial loop state of `_internal_apply_body_validation`: the
deep-copied live state with the beacon-roots system call applied, the
block gas limit as available gas, and empty tries/maps/logs. -/
def initBody (E : Ext) (b : Backend) (pb : PendingBlock) : BodyAcc :=
  { state := E.systemTx (generate_state_snapshot b),
    gas_available := pb.header.gas_limit,
    blob_gas_used := 0,
    transactions_trie := [],
    receipts_trie := [],
    receipts_map := [],
    block_logs := [],
    excluded := [] }

/-- `_internal_apply_body_validation`, for a backend whose pending block
is `pb` (with its timestamp already resolved): snapshot the live state,
run the beacon-roots system call on the copy, then fold the transaction
loop over the buffered transactions. -/
def apply_body_validation (E : Ext) (b : Backend) (pb : PendingBlock)
    (now : Nat) : BodyAcc :=
  pb.transactions.enum.foldl (bodyStep E b pb.header.gas_limit now)
    (initBody E b pb)

/-- `block_gas_limit - gas_available`, the gas-used figure the miner
writes into the finalized header. -/
def blockGasUsed (pb : PendingBlock) (out : BodyAcc) : Nat :=
  pb.header.gas_limit - out.gas_available

--------------------------------------------------------------------------
-- Mining
--------------------------------------------------------------------------

/-- `dict.update(k, v)` on an association list: overwrite in place or
append. -/
def updateHist (h : List (Nat × EState)) (k : Nat) (v : EState) :
    List (Nat × EState) :=
  if (h.lookup k).isSome then
    h.map (fun p => if p.1 = k then (k, v) else p)
  else
    h ++ [(k, v)]

/-- The timestamp `_mine_pending_block` assigns when the pending block's
timestamp is still `None`: `parent_timestamp + 1` when the parent's
timestamp is at least the wall clock, the wall clock otherwise. -/
def mineTimestamp (parent_timestamp now : Nat) : Nat :=
  if parent_timestamp ≥ now then parent_timestamp + 1 else now

/-- The pending block after `_mine_pending_block` resolved its
timestamp (the in-place dict mutation at the start of mining). -/
def resolvedPending (b : Backend) (pb : PendingBlock) (now : Nat) :
    PendingBlock :=
  let ts := pb.header.timestamp.getD
    (mineTimestamp b.chain.latest_block.header.timestamp now)
  { pb with header := { pb.header with timestamp := some ts } }

/-- The `_internal_apply_body_validation` run performed by
`_mine_pending_block` (on the backend whose pending timestamp has been
resolved to `pb'`). -/
def scratchOut (E : Ext) (b : Backend) (pb' : PendingBlock) (now : Nat) :
    BodyAcc :=
  apply_body_validation E { b with pending := some pb' } pb' now

/-- The finalized block `_mine_pending_block` commits: the pending header
fields plus the computed gas used, logs-derived fields, roots, and blob
gas; the block's transaction tuple is *all* buffered transactions
(`tuple(block["transactions"])`). -/
def minedBlock (E : Ext) (b : Backend) (pb : PendingBlock) (now : Nat) :
    Block :=
  let pb' := resolvedPending b pb now
  let out := scratchOut E b pb' now
  { header :=
      { parent_hash := pb'.header.parent_hash,
        number := pb'.header.number,
        timestamp := pb'.header.timestamp.getD 0,
        gas_limit := pb'.header.gas_limit,
        gas_used := blockGasUsed pb' out,
        base_fee_per_gas := pb'.header.base_fee_per_gas,
        coinbase := pb'.header.coinbase,
        prev_randao := pb'.header.prev_randao,
        difficulty := pb'.header.difficulty,
        excess_blob_gas := E.excessBlob b.chain.latest_block.header,
        blob_gas_used := out.blob_gas_used,
        state_root := E.stateRoot out.state,
        transactions_root := E.txRoot out.transactions_trie,
        receipt_root := E.rcptRoot out.receipts_trie },
    transactions := pb'.transactions }

/-- The block-list pruning EELS `state_transition` performs right after
appending the block: `if len(chain.blocks) > 255:
chain.blocks = chain.blocks[-255:]`. -/
def prune255 (blocks : List Block) : List Block :=
  if blocks.length > 255 then blocks.drop (blocks.length - 255) else blocks

/-- The post-mining back-fill loop of `_mine_pending_block`
(`for i, tx in enumerate(block["transactions"])`): for every transaction
of the committed block it reads
`apply_body_output["receipts_map"][tx_hash]` — a transaction with no
receipts-map entry (an excluded one) raises `KeyError` there.  The
block-location fields it writes back into `_transactions_map` /
`_receipts_map` concern only the serialized records and are not
modelled. -/
def backFillReceipts (receipts_map : List (Nat × (Tx × Nat))) :
    List Tx → Except BErr Unit
  | [] => .ok ()
  | tx :: rest =>
      match receipts_map.lookup tx with
      | none => .error (.internalError "KeyError")
      | some _ => backFillReceipts receipts_map rest

/-- The committed backend after a successful `_mine_pending_block`: the
block appended (window pruned to the last 255 blocks), the scratch state
adopted, the snapshot recorded under the block number, and the resolved
pending block left in place. -/
def minedBackend (E : Ext) (b : Backend) (pb : PendingBlock) (now : Nat) :
    Backend :=
  { chain := { b.chain with
      blocks := prune255 (b.chain.blocks ++ [minedBlock E b pb now]),
      state := (scratchOut E b (resolvedPending b pb now) now).state },
    pending := some (resolvedPending b pb now),
    state_history := updateHist b.state_history
      (minedBlock E b pb now).header.number
      (scratchOut E b (resolvedPending b pb now) now).state }

/-- `_mine_pending_block()` (wall clock passed as `now`): resolve the
timestamp, run `_internal_apply_body_validation`, finalize the header
with the computed fields, and commit through
`fork.state_transition(self.chain, _eels_block)`.

`state_transition` is the external EELS primitive: it re-validates the
header and re-executes the *full* block body against `chain.state`.  The
body is `tuple(block["transactions"])` — every buffered transaction,
including the ones the loop above dropped — while the header roots were
computed without the dropped ones.  A dropped transaction fails again
inside the EELS re-execution (the same check-transaction /
process-transaction / blob-ceiling conditions the loop caught), so the
block is rejected with `InvalidBlock`; the model expresses this by
failing exactly when the loop's exclusion list is non-empty.  On success
the re-execution reproduces the scratch result, the block is appended
and only the last 255 blocks are retained.

After the commit, the back-fill loop (`backFillReceipts`) indexes
`receipts_map` by every body transaction's hash — it would raise
`KeyError` for an excluded transaction, but `state_transition` has
already rejected such a block.  Finally a snapshot of the new state is
recorded under the block number.  The pending block itself is left in
place (the source only clears it through `_build_new_pending_block`).
A missing pending block would be a Python `TypeError`. -/
def mine_pending_block (E : Ext) (b : Backend) (now : Nat) :
    Except BErr Backend :=
  match b.pending with
  | none => .error (.internalError "TypeError")
  | some pb =>
    if (scratchOut E b (resolvedPending b pb now) now).excluded ≠ [] then
      .error (.ethereumException "InvalidBlock")
    else
      match backFillReceipts
          (scratchOut E b (resolvedPending b pb now) now).receipts_map
          (resolvedPending b pb now).transactions with
      | .error e => .error e
      | .ok _ => .ok (minedBackend E b pb now)

/-- The backend with a freshly opened pending block for
`head.number + 1`: unset timestamp, the parent's gas limit, the EIP-1559
base fee, the parent hash and the derived excess blob gas (`os.urandom`
randomness is modelled by the constant 0; no claim reads those
fields). -/
def openedBackend (E : Ext) (b : Backend) : Backend :=
  let parent := b.chain.latest_block.header
  let ph : PendingHeader :=
    { number := parent.number + 1,
      coinbase := 0,
      difficulty := 0,
      gas_limit := parent.gas_limit,
      timestamp := none,
      prev_randao := 0,
      parent_hash := E.hashHeader parent,
      base_fee_per_gas :=
        E.baseFee parent.gas_limit parent.gas_limit parent.gas_used
          parent.base_fee_per_gas,
      excess_blob_gas := E.excessBlob parent }
  let pb : PendingBlock := { header := ph, transactions := [], withdrawals := [] }
  { b with pending := some pb }

/-- `_build_new_pending_block()` with default arguments: raise
`ValidationError` when a pending block exists whose number differs from
the head's (it was never mined); otherwise open a fresh pending block
(`openedBackend`). -/
def build_new_pending_block (E : Ext) (b : Backend) : Except BErr Backend :=
  match b.pending with
  | some pb =>
      if b.chain.latest_block.header.number ≠ pb.header.number then
        .error (.validationError
          "Cannot build a new pending block until the current pending block has been included in the chain.")
      else
        .ok (openedBackend E b)
  | none => .ok (openedBackend E b)

/-- `mine_blocks(num_blocks)`: repeat mine / open-next, collecting after
each round the hash of the new chain head.  The wall clock of the i-th
round is `clock i`. -/
def mine_blocks (E : Ext) (b : Backend) : Nat → (Nat → Nat) →
    Except BErr (Backend × List Nat)
  | 0, _ => .ok (b, [])
  | n + 1, clock => do
    let b1 ← mine_pending_block E b (clock 0)
    let b2 ← build_new_pending_block E b1
    let (b3, hs) ← mine_blocks E b2 n (fun i => clock (i + 1))
    pure (b3, E.hashHeader b2.chain.latest_block.header :: hs)

--------------------------------------------------------------------------
-- Genesis
--------------------------------------------------------------------------

/-- The addresses of the ten default account keys
(`get_default_account_keys`; key-to-address derivation is external
crypto, modelled as ten distinct abstract addresses). -/
def default_account_addresses : List Nat :=
  (List.range 10).map (fun i => i + 1)

/-- `_generate_genesis_state_for_keys`: each default account starts with
balance `10 ** 18`, nonce 0 and empty code. -/
def generate_genesis_state : EState :=
  { accounts :=
      (default_account_addresses.map
        (fun a => (a, { nonce := 0, balance := 10 ^ 18, code := [] }))) ++
      [(BEACON_ROOTS_CONTRACT_ADDRESS,
        { nonce := 0, balance := 0, code := [1] })],
    storage := [] }

/-- `_generate_genesis_block()` (wall clock passed as `now`). -/
def generate_genesis_block (now : Nat) : Block :=
  { header :=
      { parent_hash := ZERO_HASH32,
        number := 0,
        timestamp := now,
        gas_limit := GENESIS_GAS_LIMIT,
        gas_used := 0,
        base_fee_per_gas := 1000000000,
        coinbase := 0,
        prev_randao := 0,
        difficulty := 131072,
        excess_blob_gas := 0,
        blob_gas_used := 0,
        state_root := ZERO_HASH32,
        transactions_root := ZERO_HASH32,
        receipt_root := ZERO_HASH32 },
    transactions := [] }

/-- `reset_to_genesis()` with default arguments: rebuild the chain from
the synthesized genesis state, record the genesis snapshot (note:
`self._state_history` is only *updated* at key 0, never cleared), then
call `_build_new_pending_block`.  The Python method mutates `self` and
then raises if the pending-block guard fires, so the result is the
(partially) mutated backend together with the raised error, if any. -/
def reset_to_genesis (E : Ext) (b : Backend) (now : Nat) :
    Backend × Option BErr :=
  let gstate := generate_genesis_state
  let b1 : Backend :=
    { chain :=
        { blocks := [generate_genesis_block now],
          state := gstate,
          chain_id := 1 },
      pending := b.pending,
      state_history := updateHist b.state_history 0 gstate }
  match build_new_pending_block E b1 with
  | .error e => (b1, some e)
  | .ok b2 => (b2, none)

/-- A freshly constructed `EELSBackend` (the `__init__` path: no chain,
no pending block, empty state history, then `reset_to_genesis`). -/
def initBackend (E : Ext) (now : Nat) : Backend :=
  (reset_to_genesis E
    { chain := { blocks := [], state := { accounts := [], storage := [] }, chain_id := 1 },
      pending := none,
      state_history := [] } now).1

--------------------------------------------------------------------------
-- Chain data queries
--------------------------------------------------------------------------

/-- `ethereum.cancun.fork.get_last_256_block_hashes(chain)`: the parent
hashes of the last 255 blocks followed by the hash of the head's header
(an external EELS primitive; `chain.blocks[-255:]` is
`drop (length - 255)`). -/
def get_last_256_block_hashes (E : Ext) (blocks : List Block) : List Nat :=
  match (blocks.drop (blocks.length - 255)).getLast? with
  | none => []
  | some lastB =>
      (blocks.drop (blocks.length - 255)).map
        (fun blk => blk.header.parent_hash) ++ [E.hashHeader lastB.header]

/-- Python `self.chain.blocks[i - 1]` for the loop index `i` of
`get_block_by_hash`: when `i = 0` the index is `-1`, which Python resolves
to the last element. -/
def blockAtPyIndex (blocks : List Block) (i : Nat) : Option Block :=
  if i = 0 then blocks.getLast? else blocks.get? (i - 1)

/-- The `for i, bh in enumerate(...)` loop body of `get_block_by_hash`:
skip `ZERO_HASH32` entries, return `chain.blocks[i - 1]` on a hash match
after the sanity re-hash check, raise `BlockNotFound` when the loop
finishes without a match. -/
def findBlockByHash (E : Ext) (blocks : List Block) (target : Nat) :
    List (Nat × Nat) → Except BErr Block
  | [] => .error (.blockNotFound "No block found for block hash.")
  | (i, bh) :: rest =>
    if bh = ZERO_HASH32 then findBlockByHash E blocks target rest
    else if bh = target then
      match blockAtPyIndex blocks i with
      | none => .error (.internalError "IndexError")
      | some blk =>
          if target ≠ E.hashHeader blk.header then
            .error (.valueError "Block hash does not match the expected hash.")
          else
            .ok blk
    else findBlockByHash E blocks target rest

/-- `get_block_by_hash(block_hash)` (serialization of the found block is
external and dropped: the block itself is returned). -/
def get_block_by_hash (E : Ext) (b : Backend) (block_hash : Nat) :
    Except BErr Block :=
  findBlockByHash E b.chain.blocks block_hash
    (get_last_256_block_hashes E b.chain.blocks).enum

--------------------------------------------------------------------------
-- call
--------------------------------------------------------------------------

/-- The block-number resolution of
`_get_synthetic_env_and_tx_for_block_number`: "latest", "safe",
"finalized" *and "pending"* resolve to the head's number, "earliest" to
0, an explicit number to itself. -/
def resolve_block_number_for_call (b : Backend) : BlockId → Nat
  | .latest | .safe | .finalized | .pending => b.chain.latest_block.header.number
  | .earliest => 0
  | .num n => n

/-- `_get_synthetic_env_and_tx_for_block_number(transaction,
block_number)`: resolve the block number, build the synthetic
environment, and convert any `EthereumException` into
`TransactionFailed("Transaction failed to execute.")` (a
`ValidationError` is not caught and propagates).  The signing and
normalization of the transaction are external and leave the chain
untouched (they only read nonce/base fee). -/
def get_synthetic_env_for_block_number (E : Ext) (b : Backend) (tx : Tx)
    (block_number : BlockId) (now : Nat) :
    Except BErr (Environment × Option Nat) :=
  match synthetic_tx_environment E b tx none
      (some (resolve_block_number_for_call b block_number)) now with
  | .error (.ethereumException _) =>
      .error (.transactionFailed "Transaction failed to execute.")
  | .error e => .error e
  | .ok res => .ok res

/-- `call(transaction, block_number="latest")`: execute the message
against the synthetic environment; an EVM `Revert` with empty output
raises `TransactionFailed("Function has been reverted.")`, a revert with
a payload raises `TransactionFailed(str(evm.output))`, any other EVM
error raises `TransactionFailed(error)`; on success the output bytes are
returned.  The second component is the backend afterwards: the only
thing `call` can write to is the `_state_history` snapshot the
environment's state aliases in the historical branch (EELS
`process_message` commits its state changes into `env.state` unless the
message errored, in which case it rolls them back).
`callWithEnv` is the body of `call` after the synthetic environment has
been built: run `process_message` and surface `evm.error` /
`evm.output`. -/
def callWithEnv (E : Ext) (b : Backend) (tx : Tx) (env : Environment)
    (aliased : Option Nat) : Except BErr (List Nat) × Backend :=
  let (st, output, evmError) := E.procMsg env.state tx
  let b' : Backend :=
    match aliased with
    | some k =>
        if evmError = none then
          { b with state_history := updateHist b.state_history k st }
        else b
    | none => b
  match evmError with
  | some .revert =>
      if output = [] then
        (.error (.transactionFailed "Function has been reverted."), b')
      else
        (.error (.transactionFailed (E.reprOutput output)), b')
  | some (.otherErr msg) => (.error (.transactionFailed msg), b')
  | none => (.ok output, b')

def call (E : Ext) (b : Backend) (tx : Tx) (block_number : BlockId)
    (now : Nat) : Except BErr (List Nat) × Backend :=
  match get_synthetic_env_for_block_number E b tx block_number now with
  | .error e => (.error e, b)
  | .ok (env, aliased) => callWithEnv E b tx env aliased

--------------------------------------------------------------------------
-- Transaction signing
--------------------------------------------------------------------------

/-- The wire-format variant `TransactionLoad` decodes a JSON transaction
into (`LegacyTransaction`, `AccessListTransaction`, `FeeMarketTransaction`,
`BlobTransaction`, or anything else). -/
inductive TxWire where
  | legacy
  | accessList
  | feeMarket
  | blob
  | unknownVariant
deriving Repr, DecidableEq

/-- The signing-hash rule `sign_transaction` selects. -/
inductive HashKind where
  | eip155
  | pre155
  | preForkLegacy
  | h2930
  | h1559
  | h4844
deriving Repr, DecidableEq

/-- The signature fields `sign_transaction` writes back into the JSON
transaction: `y_parity` is `none` when the key is absent (popped for
legacy transactions). -/
structure SignedFields where
  r : Nat
  s : Nat
  v : Nat
  y_parity : Option Nat
  hash_used : HashKind
deriving Repr, DecidableEq

/-- `sign_transaction(json_tx, private_key)`, abstracted over the
external `secp256k1_sign` (whose result `(r, s, y)` is passed in as
`sig`): select the signing hash and the recovery offset by wire-format
variant — legacy transactions use the EIP-155 hash with offset 37 when
`json_tx.get("protected", True)` holds post spurious dragon, the
pre-155 hash with offset 27 when unprotected, and the plain legacy hash
with offset 27 before the fork, popping `y_parity`; typed transactions
use their designated hash with offset 0 and set `y_parity` equal to `v`.
An unrecognized variant raises `ValidationError`. -/
def sign_transaction (variant : TxWire) (protected_flag : Option Bool)
    (after_spurious_dragon : Bool) (sig : Nat × Nat × Nat) :
    Except BErr SignedFields :=
  let (r, s, y) := sig
  let protectedTx := protected_flag.getD true
  match variant with
  | .legacy =>
      if after_spurious_dragon then
        if protectedTx then
          .ok { r := r, s := s, v := y + 37, y_parity := none,
                hash_used := .eip155 }
        else
          .ok { r := r, s := s, v := y + 27, y_parity := none,
                hash_used := .pre155 }
      else
        .ok { r := r, s := s, v := y + 27, y_parity := none,
              hash_used := .preForkLegacy }
  | .accessList =>
      .ok { r := r, s := s, v := y + 0, y_parity := some (y + 0),
            hash_used := .h2930 }
  | .feeMarket =>
      .ok { r := r, s := s, v := y + 0, y_parity := some (y + 0),
            hash_used := .h1559 }
  | .blob =>
      .ok { r := r, s := s, v := y + 0, y_parity := some (y + 0),
            hash_used := .h4844 }
  | .unknownVariant =>
      .error (.validationError "Unknown transaction type")

--------------------------------------------------------------------------
-- Wellformedness of a backend (the spec's chain invariants)
--------------------------------------------------------------------------

/-- Executable adjacent-pairs check, used to evaluate `List.Chain'`
properties of concrete chains. -/
def chainB {α : Type} (f : α → α → Bool) : List α → Bool
  | [] => true
  | [_] => true
  | x :: y :: t => f x y && chainB f (y :: t)

--------------------------------------------------------------------------
-- Concrete instances used by witnesses and counterexamples
--------------------------------------------------------------------------

/-- A concrete instantiation of the external collaborators:
header hashes are `number + 1` (never `ZERO_HASH32`), every transaction
passes `check_transaction`, executes with 21000 gas and no state change,
transaction `100` is a blob transaction carrying 7 blobs' worth of blob
gas (`7 * 131072 = 917504 > MAX_BLOB_GAS_PER_BLOCK`), and message calls
revert with empty output. -/
def extW : Ext :=
  { hashHeader := fun h => h.number + 1,
    checkTx := fun _ _ _ => true,
    procTx := fun s _ => some (s, 21000, []),
    procMsg := fun s _ => (s, [], some .revert),
    blobGas := fun t => if t = 100 then 917504 else 0,
    systemTx := fun s => s,
    baseFee := fun _ _ _ bf => bf,
    excessBlob := fun _ => 0,
    stateRoot := fun _ => 0,
    txRoot := fun _ => 0,
    rcptRoot := fun _ => 0,
    logsBloom := fun _ => 0,
    reprOutput := fun _ => "raw output" }

/-- A header that differs from `default` only where stated. -/
def mkHeader (number timestamp : Nat) : Header :=
  { parent_hash := number, number := number, timestamp := timestamp,
    gas_limit := GENESIS_GAS_LIMIT, gas_used := 0,
    base_fee_per_gas := 1000000000, coinbase := 0, prev_randao := 0,
    difficulty := 0, excess_blob_gas := 0, blob_gas_used := 0,
    state_root := 0, transactions_root := 0, receipt_root := 0 }

/-- A one-account state whose balance tags the snapshot. -/
def tagState (tag : Nat) : EState :=
  { accounts := [(1, { nonce := 0, balance := tag, code := [] })],
    storage := [] }

/-- Concrete backend for the snapshot/revert scenarios: three mined
blocks 0, 1, 2 with snapshots recorded for each. -/
def bC2 : Backend :=
  { chain :=
      { blocks := [ { header := mkHeader 0 100, transactions := [] },
                    { header := mkHeader 1 1000, transactions := [] },
                    { header := mkHeader 2 2000, transactions := [] } ],
        state := tagState 2,
        chain_id := 1 },
    pending := some
      { header := { number := 3, coinbase := 0, difficulty := 0,
                    gas_limit := GENESIS_GAS_LIMIT, timestamp := none,
                    prev_randao := 0, parent_hash := 3,
                    base_fee_per_gas := 1000000000, excess_blob_gas := 0 },
        transactions := [], withdrawals := [] },
    state_history := [(0, tagState 0), (1, tagState 1), (2, tagState 2)] }

/-- Concrete backend for the account-query scenario: a snapshot is
recorded for block 0 in which account 1 has balance 5, while the live
state has balance 7, nonce 9, code `[8]` and storage slot 0 set to 4. -/
def bC3 : Backend :=
  { chain :=
      { blocks := [ { header := mkHeader 0 100, transactions := [] } ],
        state :=
          { accounts := [(1, { nonce := 9, balance := 7, code := [8] })],
            storage := [((1, 0), 4)] },
        chain_id := 1 },
    pending := some
      { header := { number := 1, coinbase := 0, difficulty := 0,
                    gas_limit := GENESIS_GAS_LIMIT, timestamp := none,
                    prev_randao := 0, parent_hash := 1,
                    base_fee_per_gas := 1000000000, excess_blob_gas := 0 },
        transactions := [], withdrawals := [] },
    state_history :=
      [(0, { accounts := [(1, { nonce := 3, balance := 5, code := [7] })],
             storage := [((1, 0), 6)] })] }

/-- The pending block of the mining witness: a normal transaction `5`
followed by the over-the-blob-ceiling transaction `100`. -/
def pbW1 : PendingBlock :=
  { header := { number := 1, coinbase := 0, difficulty := 0,
                gas_limit := GENESIS_GAS_LIMIT, timestamp := none,
                prev_randao := 0, parent_hash := 1,
                base_fee_per_gas := 1000000000, excess_blob_gas := 0 },
    transactions := [5, 100], withdrawals := [] }

/-- The mining witness backend: a fresh genesis backend whose pending
block buffers transactions `[5, 100]`. -/
def bW1 : Backend :=
  { initBackend extW 1000 with pending := some pbW1 }

/-- Concrete backend for the historical-environment scenario: three
mined blocks with timestamps 100, 1000 and 2000, snapshots recorded for
each, pending block number 3. -/
def bC6 : Backend :=
  { chain :=
      { blocks := [ { header := mkHeader 0 100, transactions := [] },
                    { header := mkHeader 1 1000, transactions := [] },
                    { header := mkHeader 2 2000, transactions := [] } ],
        state := tagState 2,
        chain_id := 1 },
    pending := some
      { header := { number := 3, coinbase := 0, difficulty := 0,
                    gas_limit := GENESIS_GAS_LIMIT, timestamp := none,
                    prev_randao := 0, parent_hash := 3,
                    base_fee_per_gas := 1000000000, excess_blob_gas := 0 },
        transactions := [], withdrawals := [] },
    state_history := [(0, tagState 0), (1, tagState 1), (2, tagState 2)] }

/-- A 258-block chain for the deep-history lookup scenario: block `i`
has number `i`, timestamp `1000 + i` and parent hash `i`, which is
exactly `extW.hashHeader` of block `i - 1`'s header. -/
def bC9 : Backend :=
  { chain :=
      { blocks := (List.range 258).map
          (fun i => { header := mkHeader i (1000 + i), transactions := [] }),
        state := tagState 0,
        chain_id := 1 },
    pending := none,
    state_history := [] }

/-- The backend obtained by mining one block on a fresh genesis backend
(used by the reset-after-mining scenario). -/
def bmC7 : Backend :=
  match mine_blocks extW (initBackend extW 1000) 1 (fun _ => 500) with
  | .ok p => p.1
  | .error _ => default

/-- The pending block a fresh genesis backend opens. -/
def pbG : PendingBlock :=
  ((initBackend extW 1000).pending).getD default

/-- The result of mining three empty blocks on a fresh genesis backend
(used to discharge the success hypothesis of the timestamp theorem). -/
def mineW3 : Backend × List Nat :=
  match mine_blocks extW (initBackend extW 1000) 3 (fun i => 500 * i) with
  | .ok p => p
  | .error _ => default

--------------------------------------------------------------------------
-- C5: transaction signing
--------------------------------------------------------------------------

/-- C5: `sign_transaction` writes `v = recovery_id + 37` for a legacy
transaction signed with the replay-protected (EIP-155) hash, which is
selected when the `protected` flag is absent or true post spurious
dragon; `v = recovery_id + 27` for an unprotected or pre-fork legacy
transaction (with the corresponding unprotected hash); `v = recovery_id`
for typed access-list, fee-market and blob transactions with their
designated hashes; `y_parity` equals `v` exactly for the typed variants
and is absent for legacy transactions; an unrecognized variant raises
`ValidationError`. -/
theorem sign_transaction_v_and_y_parity (r s y : Nat) :
    sign_transaction .legacy none true (r, s, y) =
      .ok { r := r, s := s, v := y + 37, y_parity := none,
            hash_used := .eip155 } ∧
    sign_transaction .legacy (some true) true (r, s, y) =
      .ok { r := r, s := s, v := y + 37, y_parity := none,
            hash_used := .eip155 } ∧
    sign_transaction .legacy (some false) true (r, s, y) =
      .ok { r := r, s := s, v := y + 27, y_parity := none,
            hash_used := .pre155 } ∧
    (∀ p, sign_transaction .legacy p false (r, s, y) =
      .ok { r := r, s := s, v := y + 27, y_parity := none,
            hash_used := .preForkLegacy }) ∧
    (∀ p f, sign_transaction .accessList p f (r, s, y) =
      .ok { r := r, s := s, v := y, y_parity := some y,
            hash_used := .h2930 }) ∧
    (∀ p f, sign_transaction .feeMarket p f (r, s, y) =
      .ok { r := r, s := s, v := y, y_parity := some y,
            hash_used := .h1559 }) ∧
    (∀ p f, sign_transaction .blob p f (r, s, y) =
      .ok { r := r, s := s, v := y, y_parity := some y,
            hash_used := .h4844 }) ∧
    (∀ p f, sign_transaction .unknownVariant p f (r, s, y) =
      .error (.validationError "Unknown transaction type")) :=
  ⟨rfl, rfl, rfl, fun _ => rfl, fun _ _ => rfl, fun _ _ => rfl,
   fun _ _ => rfl, fun _ _ => rfl⟩

--------------------------------------------------------------------------
-- C2: revert_to_snapshot
--------------------------------------------------------------------------

/-- C2 (counterexample): after `revert_to_snapshot(1)` on a backend with
blocks 0..2 and snapshots for 0..2, the snapshot index still holds an
entry for block number 2 although no block with number 2 remains in
`Chain.blocks` — the snapshot index is *not* truncated, refuting the
claim's "truncates both Chain.blocks and the snapshot index" and its
"exactly one entry per block number present in Chain.blocks"
consequence. -/
theorem revert_keeps_stale_snapshots :
    (revert_to_snapshot bC2 1).map
      (fun b' => ((b'.state_history.lookup 2).isSome,
                  b'.chain.blocks.all (fun blk => blk.header.number != 2),
                  b'.state_history.length,
                  b'.chain.blocks.length)) =
    .ok (true, true, 3, 2) := rfl

/-- C2 (amended): `revert_to_snapshot(token)` raises `ValidationError`
when no snapshot is recorded for that block number, leaving the backend
unchanged; otherwise it sets the live state to the recorded snapshot and
truncates `Chain.blocks` to that number — but the snapshot index is left
untouched, so entries for truncated block numbers persist in it. -/
theorem revert_to_snapshot_spec (b : Backend) (n : Nat) :
    (b.state_history.lookup n = none →
      revert_to_snapshot b n =
        .error (.validationError "No snapshot found for block number.")) ∧
    (∀ s, b.state_history.lookup n = some s →
      revert_to_snapshot b n = .ok
        { b with chain := { b.chain with
            state := s,
            blocks := b.chain.blocks.take (n + 1) } }) ∧
    (∀ b', revert_to_snapshot b n = .ok b' →
      b'.state_history = b.state_history) := by
  refine ⟨fun h => ?_, fun s h => ?_, fun b' h => ?_⟩
  · simp only [revert_to_snapshot, h]
  · simp only [revert_to_snapshot, h]
  · unfold revert_to_snapshot at h
    cases hl : b.state_history.lookup n with
    | none => rw [hl] at h; exact absurd h (by simp)
    | some s => rw [hl] at h; cases h; rfl

/-- Witness for C2's amended theorem at concrete inputs: block number 5
has no snapshot and reverting to it fails; block number 1 has one and
reverting to it truncates the block list while keeping the snapshot
index. -/
theorem revert_to_snapshot_spec_witness :
    revert_to_snapshot bC2 5 =
      .error (.validationError "No snapshot found for block number.") ∧
    revert_to_snapshot bC2 1 = .ok
      { bC2 with chain := { bC2.chain with
          state := tagState 1,
          blocks := bC2.chain.blocks.take 2 } } :=
  ⟨(revert_to_snapshot_spec bC2 5).1 rfl,
   (revert_to_snapshot_spec bC2 1).2.1 (tagState 1) rfl⟩

--------------------------------------------------------------------------
-- C3: account queries and block numbers
--------------------------------------------------------------------------

/-- C3: contrary to the claim, `get_nonce`, `get_balance`, `get_code`
and `get_storage` ignore their `block_number` argument and always read
the live `chain.state`: with a recorded snapshot for block 0 in which
account 1 has balance 5 / nonce 3 / code `[7]` / slot 0 = 6, the getters
pinned to block 0 return the live values 7 / 9 / `[8]` / 4 instead, and
pinned to the unknown block number 99 they return the live values
instead of raising `ValidationError` — although the (unused) resolver
`_get_state_for_block_number` does raise for 99. -/
theorem account_queries_ignore_block_number :
    get_balance bC3 1 (.num 0) = 7 ∧
    get_nonce bC3 1 (.num 0) = 9 ∧
    get_code bC3 1 (.num 0) = [8] ∧
    get_storage bC3 1 0 (.num 0) = 4 ∧
    (get_state_for_block_number bC3 (.num 0)).map
      (fun st => ((getAccount st 1).balance, (getAccount st 1).nonce,
                  (getAccount st 1).code, getStorageSlot st 1 0)) =
      .ok (5, 3, [7], 6) ∧
    get_balance bC3 1 (.num 99) = 7 ∧
    get_nonce bC3 1 (.num 99) = 9 ∧
    get_state_for_block_number bC3 (.num 99) =
      .error (.validationError "No state snapshot found for block number.") :=
  ⟨rfl, rfl, rfl, rfl, rfl, rfl, rfl, rfl⟩

--------------------------------------------------------------------------
-- Mining helper lemmas
--------------------------------------------------------------------------

theorem exceptBindOk {ε α β : Type} (a : α) (f : α → Except ε β) :
    (Except.ok a >>= f : Except ε β) = f a := rfl

theorem exceptBindErr {ε α β : Type} (e : ε) (f : α → Except ε β) :
    (Except.error e >>= f : Except ε β) = .error e := rfl

theorem lookup_cons {α : Type} (a k : Nat) (w : α) (rest : List (Nat × α)) :
    (((a, w) :: rest : List (Nat × α)).lookup k) =
      if k = a then some w else rest.lookup k := by
  by_cases h : k = a
  · have hb : (k == a) = true := by simp [h]
    simp only [List.lookup, hb, if_pos h]
  · have hb : (k == a) = false := by simp [h]
    simp only [List.lookup, hb, if_neg h]

theorem lookup_append_some {α : Type} (l₁ l₂ : List (Nat × α)) (k : Nat)
    (v : α) (h : l₁.lookup k = some v) : (l₁ ++ l₂).lookup k = some v := by
  induction l₁ with
  | nil => simp [List.lookup] at h
  | cons p l ih =>
      obtain ⟨a, w⟩ := p
      rw [List.cons_append]
      cases hb : (k == a) with
      | true =>
          simp only [List.lookup, hb] at h ⊢
          exact h
      | false =>
          simp only [List.lookup, hb] at h ⊢
          exact ih h

theorem lookup_append_none {α : Type} (l₁ l₂ : List (Nat × α)) (k : Nat)
    (h : l₁.lookup k = none) : (l₁ ++ l₂).lookup k = l₂.lookup k := by
  induction l₁ with
  | nil => rfl
  | cons p l ih =>
      obtain ⟨a, w⟩ := p
      rw [List.cons_append]
      cases hb : (k == a) with
      | true =>
          simp only [List.lookup, hb] at h
          exact absurd h (by simp)
      | false =>
          simp only [List.lookup, hb] at h ⊢
          exact ih h

theorem lookup_concat_ne {α : Type} (l : List (Nat × α)) (k i : Nat) (v : α)
    (hk : l.lookup k = none) (hne : k ≠ i) :
    (l ++ [(i, v)]).lookup k = none := by
  rw [lookup_append_none l _ k hk]
  have hb : (k == i) = false := by
    simp [hne]
  simp only [List.lookup, hb]

theorem lookup_updateAssoc_self {α : Type} (m : List (Nat × α)) (k : Nat)
    (v : α) : (updateAssoc m k v).lookup k = some v := by
  induction m with
  | nil => simp [updateAssoc, lookup_cons]
  | cons p rest ih =>
      obtain ⟨a, w⟩ := p
      by_cases h : a = k
      · rw [show updateAssoc ((a, w) :: rest) k v = (k, v) :: rest from
          by simp [updateAssoc, h]]
        simp [lookup_cons]
      · rw [show updateAssoc ((a, w) :: rest) k v =
            (a, w) :: updateAssoc rest k v from by simp [updateAssoc, h]]
        rw [lookup_cons, if_neg (fun e => h e.symm)]
        exact ih

theorem lookup_updateAssoc_isSome {α : Type} (k k' : Nat) (v : α)
    (hk : k' ≠ k) :
    ∀ (m : List (Nat × α)), (m.lookup k').isSome = true →
    ((updateAssoc m k v).lookup k').isSome = true := by
  intro m
  induction m with
  | nil => intro h; simp [List.lookup] at h
  | cons p rest ih =>
      intro h
      obtain ⟨a, w⟩ := p
      rw [lookup_cons] at h
      by_cases ha : a = k
      · rw [show updateAssoc ((a, w) :: rest) k v = (k, v) :: rest from
          by simp [updateAssoc, ha]]
        have hk'a : ¬ (k' = a) := fun e => hk (e.trans ha)
        rw [if_neg hk'a] at h
        rw [lookup_cons, if_neg hk]
        exact h
      · rw [show updateAssoc ((a, w) :: rest) k v =
            (a, w) :: updateAssoc rest k v from by simp [updateAssoc, ha]]
        rw [lookup_cons]
        by_cases hk'a : k' = a
        · rw [if_pos hk'a]
          rfl
        · rw [if_neg hk'a] at h
          rw [if_neg hk'a]
          exact ih h

theorem lookup_updateAssoc_mono {α : Type} (m : List (Nat × α))
    (k k' : Nat) (v : α) (h : (m.lookup k').isSome = true) :
    ((updateAssoc m k v).lookup k').isSome = true := by
  by_cases hk : k' = k
  · subst hk
    rw [lookup_updateAssoc_self]
    rfl
  · exact lookup_updateAssoc_isSome k k' v hk m h

/-- Case analysis for one step of the mining transaction loop: the
transaction at index `i` is either excluded — index appended to the
exclusion list, tries, receipts map and available gas untouched — or
included — tries extended at key `i`, the receipts map updated at the
transaction's hash, the receipt carrying cumulative gas
`gas_limit - gas_available'`. -/
theorem bodyStep_cases (E : Ext) (bb : Backend) (gl now : Nat)
    (acc : BodyAcc) (i : Nat) (tx : Tx) :
    ((bodyStep E bb gl now acc (i, tx)).excluded = acc.excluded ++ [i] ∧
     (bodyStep E bb gl now acc (i, tx)).transactions_trie =
       acc.transactions_trie ∧
     (bodyStep E bb gl now acc (i, tx)).receipts_trie = acc.receipts_trie ∧
     (bodyStep E bb gl now acc (i, tx)).receipts_map = acc.receipts_map ∧
     (bodyStep E bb gl now acc (i, tx)).gas_available = acc.gas_available) ∨
    ((bodyStep E bb gl now acc (i, tx)).excluded = acc.excluded ∧
     ∃ g, (bodyStep E bb gl now acc (i, tx)).transactions_trie =
         acc.transactions_trie ++ [(i, tx)] ∧
       (bodyStep E bb gl now acc (i, tx)).receipts_trie =
         acc.receipts_trie ++ [(i, (tx, gl - (acc.gas_available - g)))] ∧
       (bodyStep E bb gl now acc (i, tx)).receipts_map =
         updateAssoc acc.receipts_map tx
           (tx, gl - (acc.gas_available - g)) ∧
       (bodyStep E bb gl now acc (i, tx)).gas_available =
         acc.gas_available - g) := by
  rcases hs : synthetic_tx_environment E bb tx (some acc.state) none now
    with e | envp
  · left
    refine ⟨?_, ?_, ?_, ?_, ?_⟩ <;> simp [bodyStep, hs]
  · rcases hp : E.procTx acc.state tx with _ | ⟨st, g, lg⟩
    · left
      refine ⟨?_, ?_, ?_, ?_, ?_⟩ <;> simp [bodyStep, hs, hp]
    · by_cases hblob : MAX_BLOB_GAS_PER_BLOCK < acc.blob_gas_used + E.blobGas tx
      · left
        refine ⟨?_, ?_, ?_, ?_, ?_⟩ <;> simp [bodyStep, hs, hp, hblob]
      · right
        refine ⟨?_, g, ?_, ?_, ?_, ?_⟩ <;> simp [bodyStep, hs, hp, hblob]

/-- Folding the mining loop preserves: every excluded index has no entry
in either trie, and indices not yet processed are fresh. -/
theorem bodyFold_lookup_none (E : Ext) (bb : Backend) (gl now : Nat) :
    ∀ (l : List (Nat × Tx)) (acc : BodyAcc),
    (∀ j, j ∈ acc.excluded → acc.transactions_trie.lookup j = none ∧
      acc.receipts_trie.lookup j = none) →
    (∀ p ∈ l, p.1 ∉ acc.excluded ∧ acc.transactions_trie.lookup p.1 = none ∧
      acc.receipts_trie.lookup p.1 = none) →
    (l.map Prod.fst).Nodup →
    ∀ j ∈ (l.foldl (bodyStep E bb gl now) acc).excluded,
      (l.foldl (bodyStep E bb gl now) acc).transactions_trie.lookup j = none ∧
      (l.foldl (bodyStep E bb gl now) acc).receipts_trie.lookup j = none := by
  intro l
  induction l with
  | nil => intro acc h1 _ _ j hj; exact h1 j hj
  | cons p l ih =>
    intro acc h1 h2 hnd j hj
    obtain ⟨i, tx⟩ := p
    obtain ⟨hip, hitrie, hirec⟩ := h2 (i, tx) (List.mem_cons_self _ _)
    have hnd' : (l.map Prod.fst).Nodup := (List.nodup_cons.mp hnd).2
    have hi_not_l : i ∉ l.map Prod.fst := (List.nodup_cons.mp hnd).1
    rcases bodyStep_cases E bb gl now acc i tx with
      ⟨he, ht, hr, _, _⟩ | ⟨he, g, ht, hr, _, _⟩
    · refine ih (bodyStep E bb gl now acc (i, tx)) ?_ ?_ hnd' j hj
      · intro j' hj'
        rw [he] at hj'
        rw [ht, hr]
        rcases List.mem_append.mp hj' with hj'' | hj''
        · exact h1 j' hj''
        · simp only [List.mem_singleton] at hj''
          subst hj''
          exact ⟨hitrie, hirec⟩
      · intro q hq
        obtain ⟨hq1, hq2, hq3⟩ := h2 q (List.mem_cons_of_mem _ hq)
        rw [he, ht, hr]
        refine ⟨?_, hq2, hq3⟩
        intro hmem
        rcases List.mem_append.mp hmem with hm | hm
        · exact hq1 hm
        · simp only [List.mem_singleton] at hm
          exact hi_not_l (hm ▸ List.mem_map_of_mem Prod.fst hq)
    · refine ih (bodyStep E bb gl now acc (i, tx)) ?_ ?_ hnd' j hj
      · intro j' hj'
        rw [he] at hj'
        have hji : j' ≠ i := fun hji => hip (hji ▸ hj')
        rw [ht, hr]
        exact ⟨lookup_concat_ne _ _ _ _ (h1 j' hj').1 hji,
               lookup_concat_ne _ _ _ _ (h1 j' hj').2 hji⟩
      · intro q hq
        obtain ⟨hq1, hq2, hq3⟩ := h2 q (List.mem_cons_of_mem _ hq)
        have hqi : q.1 ≠ i := fun hqi =>
          hi_not_l (hqi ▸ List.mem_map_of_mem Prod.fst hq)
        rw [he, ht, hr]
        exact ⟨hq1, lookup_concat_ne _ _ _ _ hq2 hqi,
               lookup_concat_ne _ _ _ _ hq3 hqi⟩

/-- Monotonicity of the mining loop: once excluded, inserted into the
transactions trie, or recorded in the receipts map, an index/hash stays
so. -/
theorem bodyFold_mono (E : Ext) (bb : Backend) (gl now : Nat) :
    ∀ (l : List (Nat × Tx)) (acc : BodyAcc) (j : Nat),
    (j ∈ acc.excluded → j ∈ (l.foldl (bodyStep E bb gl now) acc).excluded) ∧
    ((acc.transactions_trie.lookup j).isSome →
      ((l.foldl (bodyStep E bb gl now) acc).transactions_trie.lookup
        j).isSome) ∧
    ((acc.receipts_map.lookup j).isSome →
      ((l.foldl (bodyStep E bb gl now) acc).receipts_map.lookup
        j).isSome) := by
  intro l
  induction l with
  | nil => intro acc j; exact ⟨id, id, id⟩
  | cons p l ih =>
    intro acc j
    obtain ⟨i, tx⟩ := p
    rcases bodyStep_cases E bb gl now acc i tx with
      ⟨he, ht, _, hm, _⟩ | ⟨he, g, ht, _, hm, _⟩
    · refine ⟨?_, ?_, ?_⟩
      · intro hj
        refine (ih (bodyStep E bb gl now acc (i, tx)) j).1 ?_
        rw [he]; exact List.mem_append_left _ hj
      · intro hj
        refine (ih (bodyStep E bb gl now acc (i, tx)) j).2.1 ?_
        rw [ht]; exact hj
      · intro hj
        refine (ih (bodyStep E bb gl now acc (i, tx)) j).2.2 ?_
        rw [hm]; exact hj
    · refine ⟨?_, ?_, ?_⟩
      · intro hj
        refine (ih (bodyStep E bb gl now acc (i, tx)) j).1 ?_
        rw [he]; exact hj
      · intro hj
        refine (ih (bodyStep E bb gl now acc (i, tx)) j).2.1 ?_
        rw [ht]
        obtain ⟨v, hv⟩ := Option.isSome_iff_exists.mp hj
        rw [lookup_append_some _ _ _ _ hv]
        rfl
      · intro hj
        refine (ih (bodyStep E bb gl now acc (i, tx)) j).2.2 ?_
        rw [hm]
        exact lookup_updateAssoc_mono _ _ _ _ hj

/-- Every processed index ends up excluded or in the transactions
trie. -/
theorem bodyFold_coverage (E : Ext) (bb : Backend) (gl now : Nat) :
    ∀ (l : List (Nat × Tx)) (acc : BodyAcc) (p : Nat × Tx), p ∈ l →
      p.1 ∈ (l.foldl (bodyStep E bb gl now) acc).excluded ∨
      ((l.foldl (bodyStep E bb gl now) acc).transactions_trie.lookup
        p.1).isSome := by
  intro l
  induction l with
  | nil => intro acc p hp; exact absurd hp (List.not_mem_nil p)
  | cons q l ih =>
    intro acc p hp
    rcases List.mem_cons.mp hp with hq | hq
    · subst hq
      obtain ⟨i, tx⟩ := p
      rcases bodyStep_cases E bb gl now acc i tx with
        ⟨he, _, _, _, _⟩ | ⟨he, g, ht, _, _, _⟩
      · left
        refine (bodyFold_mono E bb gl now l _ i).1 ?_
        rw [he]; exact List.mem_append_right _ (List.mem_singleton.mpr rfl)
      · right
        refine (bodyFold_mono E bb gl now l _ i).2.1 ?_
        rw [ht]
        cases hv : acc.transactions_trie.lookup i with
        | some v => rw [lookup_append_some _ _ _ _ hv]; rfl
        | none => rw [lookup_append_none _ _ _ hv]; simp [List.lookup]
    · exact ih _ p hq

/-- The gas-used figure always equals the cumulative gas of the last
receipt in the receipts trie (0 when no transaction was included):
excluded transactions contribute nothing to it. -/
theorem bodyFold_gas (E : Ext) (bb : Backend) (gl now : Nat) :
    ∀ (l : List (Nat × Tx)) (acc : BodyAcc),
    gl - acc.gas_available =
      ((acc.receipts_trie.getLast?).map (fun e => e.2.2)).getD 0 →
    gl - (l.foldl (bodyStep E bb gl now) acc).gas_available =
      (((l.foldl (bodyStep E bb gl now) acc).receipts_trie.getLast?).map
        (fun e => e.2.2)).getD 0 := by
  intro l
  induction l with
  | nil => intro acc h; exact h
  | cons p l ih =>
    intro acc h
    obtain ⟨i, tx⟩ := p
    rcases bodyStep_cases E bb gl now acc i tx with
      ⟨_, _, hr, _, hg⟩ | ⟨_, g, _, hr, _, hg⟩
    · exact ih _ (by rw [hr, hg]; exact h)
    · refine ih _ ?_
      rw [hr, hg, List.getLast?_concat]
      rfl

/-- Unfolding of `mine_pending_block` under a known pending block. -/
theorem mine_pending_block_eq (E : Ext) (b : Backend) (now : Nat)
    (pb : PendingBlock) (hpb : b.pending = some pb) :
    mine_pending_block E b now =
      if (scratchOut E b (resolvedPending b pb now) now).excluded ≠ [] then
        .error (.ethereumException "InvalidBlock")
      else
        match backFillReceipts
            (scratchOut E b (resolvedPending b pb now) now).receipts_map
            (resolvedPending b pb now).transactions with
        | .error e => .error e
        | .ok _ => .ok (minedBackend E b pb now) := by
  unfold mine_pending_block
  rw [hpb]

/-- Unfolding of `_build_new_pending_block` under a known pending
block. -/
theorem build_new_pending_block_eq (E : Ext) (b : Backend)
    (pb : PendingBlock) (hpb : b.pending = some pb) :
    build_new_pending_block E b =
      if b.chain.latest_block.header.number ≠ pb.header.number then
        .error (.validationError
          "Cannot build a new pending block until the current pending block has been included in the chain.")
      else .ok (openedBackend E b) := by
  unfold build_new_pending_block
  rw [hpb]

/-- A successful `_mine_pending_block` run: a pending block existed, the
loop excluded nothing, and the result is `minedBackend`. -/
theorem mine_ok_shape (E : Ext) (b : Backend) (now : Nat) (b1 : Backend)
    (h : mine_pending_block E b now = .ok b1) :
    ∃ pb, b.pending = some pb ∧
      (scratchOut E b (resolvedPending b pb now) now).excluded = [] ∧
      b1 = minedBackend E b pb now := by
  cases hpb : b.pending with
  | none =>
      unfold mine_pending_block at h
      rw [hpb] at h
      have h' : (Except.error (BErr.internalError "TypeError") :
          Except BErr Backend) = .ok b1 := h
      exact absurd h' (by simp)
  | some pb =>
      rw [mine_pending_block_eq E b now pb hpb] at h
      by_cases hexc :
          (scratchOut E b (resolvedPending b pb now) now).excluded ≠ []
      · rw [if_pos hexc] at h
        exact absurd h (by simp)
      · rw [if_neg hexc] at h
        cases hbf : backFillReceipts
            (scratchOut E b (resolvedPending b pb now) now).receipts_map
            (resolvedPending b pb now).transactions with
        | error e =>
            rw [hbf] at h
            have h' : (Except.error e : Except BErr Backend) = .ok b1 := h
            exact absurd h' (by simp)
        | ok u =>
            rw [hbf] at h
            have h' : (Except.ok (minedBackend E b pb now) :
                Except BErr Backend) = .ok b1 := h
            injection h' with h'
            exact ⟨pb, rfl, not_ne_iff.mp hexc, h'.symm⟩

/-- A successful `_build_new_pending_block` run always yields the opened
backend. -/
theorem build_ok_shape (E : Ext) (b1 b2 : Backend)
    (h : build_new_pending_block E b1 = .ok b2) :
    b2 = openedBackend E b1 := by
  cases hpb : b1.pending with
  | none =>
      unfold build_new_pending_block at h
      rw [hpb] at h
      have h' : (Except.ok (openedBackend E b1) : Except BErr Backend) =
          .ok b2 := h
      injection h' with h'
      exact h'.symm
  | some pb =>
      rw [build_new_pending_block_eq E b1 pb hpb] at h
      by_cases hg : b1.chain.latest_block.header.number ≠ pb.header.number
      · rw [if_pos hg] at h
        exact absurd h (by simp)
      · rw [if_neg hg] at h
        injection h with h
        exact h.symm

theorem getLast?_eq_latest (c : Chain) (h : c.blocks ≠ []) :
    c.blocks.getLast? = some c.latest_block := by
  unfold Chain.latest_block
  cases hq : c.blocks.getLast? with
  | none => exact absurd (List.getLast?_eq_none_iff.mp hq) h
  | some x => simp [List.getLastD_eq_getLast?, hq]

theorem mineTimestamp_gt (p now : Nat) : p < mineTimestamp p now := by
  unfold mineTimestamp; split <;> omega

theorem chain'_concat {α : Type} {R : α → α → Prop} {l : List α} {a : α}
    (h : List.Chain' R l) (ha : ∀ x ∈ l.getLast?, R x a) :
    List.Chain' R (l ++ [a]) := by
  rw [List.chain'_append]
  refine ⟨h, List.chain'_singleton a, fun x hx y hy => ?_⟩
  simp only [List.head?_cons, Option.mem_def, Option.some.injEq] at hy
  subst hy
  exact ha x hx

set_option maxRecDepth 4000 in
/-- The 255-block pruning keeps a suffix, so any adjacency invariant
survives it. -/
theorem chain'_prune {R : Block → Block → Prop} {l : List Block}
    (h : List.Chain' R l) : List.Chain' R (prune255 l) := by
  unfold prune255
  split
  · exact h.suffix (List.drop_suffix _ _)
  · exact h

/-- Unfolding of one `mine_blocks` round. -/
theorem mine_blocks_succ_eq (E : Ext) (b : Backend) (n : Nat)
    (clock : Nat → Nat) :
    mine_blocks E b (n + 1) clock =
      (mine_pending_block E b (clock 0) >>= fun b1 =>
        build_new_pending_block E b1 >>= fun b2 =>
        (mine_blocks E b2 n fun i => clock (i + 1)) >>= fun p =>
        pure (p.1, E.hashHeader b2.chain.latest_block.header :: p.2)) := rfl

/-- Inversion of one successful `mine_blocks` round. -/
theorem mine_blocks_succ_inv (E : Ext) (b : Backend) (n : Nat)
    (clock : Nat → Nat) (b' : Backend) (hs : List Nat)
    (h : mine_blocks E b (n + 1) clock = .ok (b', hs)) :
    ∃ (b1 b2 : Backend) (hs' : List Nat),
      mine_pending_block E b (clock 0) = .ok b1 ∧
      build_new_pending_block E b1 = .ok b2 ∧
      mine_blocks E b2 n (fun i => clock (i + 1)) = .ok (b', hs') ∧
      hs = E.hashHeader b2.chain.latest_block.header :: hs' := by
  rw [mine_blocks_succ_eq] at h
  cases hm : mine_pending_block E b (clock 0) with
  | error e =>
      rw [hm, exceptBindErr] at h
      exact absurd h (by simp)
  | ok b1 =>
      rw [hm, exceptBindOk] at h
      have h1 : (build_new_pending_block E b1 >>= fun b2 =>
          (mine_blocks E b2 n fun i => clock (i + 1)) >>= fun p =>
          (pure (p.1, E.hashHeader b2.chain.latest_block.header :: p.2) :
            Except BErr (Backend × List Nat))) = .ok (b', hs) := h
      cases hb : build_new_pending_block E b1 with
      | error e =>
          rw [hb, exceptBindErr] at h1
          exact absurd h1 (by simp)
      | ok b2 =>
          rw [hb, exceptBindOk] at h1
          have h2 : ((mine_blocks E b2 n fun i => clock (i + 1)) >>=
              fun p =>
              (pure (p.1, E.hashHeader b2.chain.latest_block.header :: p.2) :
                Except BErr (Backend × List Nat))) = .ok (b', hs) := h1
          cases hr : mine_blocks E b2 n (fun i => clock (i + 1)) with
          | error e =>
              rw [hr, exceptBindErr] at h2
              exact absurd h2 (by simp)
          | ok p =>
              rw [hr, exceptBindOk] at h2
              have h3 : (Except.ok
                  (p.1, E.hashHeader b2.chain.latest_block.header :: p.2) :
                  Except BErr (Backend × List Nat)) = .ok (b', hs) := h2
              injection h3 with h4
              have hb' : p.1 = b' := congrArg Prod.fst h4
              have hhs : hs =
                  E.hashHeader b2.chain.latest_block.header :: p.2 :=
                (congrArg Prod.snd h4).symm
              refine ⟨b1, b2, p.2, rfl, hb, ?_, hhs⟩
              rw [← hb']
              exact hr

/-- Along any successful `mine_blocks` run, if the starting pending
block's timestamp is unset and the chain's header timestamps are
strictly increasing, the final chain's header timestamps are still
strictly increasing: each committed block's timestamp exceeds its
parent's by the `mineTimestamp` rule, and the 255-block pruning keeps a
suffix. -/
theorem mine_blocks_timestamps_trace (E : Ext) :
    ∀ (n : Nat) (b : Backend) (clock : Nat → Nat) (b' : Backend)
      (hs : List Nat),
    b.pending.map (fun pb => pb.header.timestamp) = some none →
    List.Chain' (· < ·)
      (b.chain.blocks.map (fun blk => blk.header.timestamp)) →
    mine_blocks E b n clock = .ok (b', hs) →
    List.Chain' (· < ·)
      (b'.chain.blocks.map (fun blk => blk.header.timestamp)) := by
  intro n
  induction n with
  | zero =>
      intro b clock b' hs _ hmono hrun
      have h0 : (Except.ok (b, ([] : List Nat)) :
          Except BErr (Backend × List Nat)) = .ok (b', hs) := hrun
      injection h0 with h0
      have h1 : b = b' := congrArg Prod.fst h0
      rw [← h1]
      exact hmono
  | succ n ih =>
      intro b clock b' hs hts hmono hrun
      obtain ⟨b1, b2, hs', hm, hb, hr, _⟩ :=
        mine_blocks_succ_inv E b n clock b' hs hrun
      obtain ⟨pb, hpb, _, hb1⟩ := mine_ok_shape E b (clock 0) b1 hm
      subst hb1
      have hb2 := build_ok_shape E _ b2 hb
      subst hb2
      have hpbts : pb.header.timestamp = none := by
        rw [hpb] at hts
        simpa using hts
      have hblkts : (minedBlock E b pb (clock 0)).header.timestamp =
          mineTimestamp b.chain.latest_block.header.timestamp (clock 0) := by
        have h0 : (minedBlock E b pb (clock 0)).header.timestamp =
            pb.header.timestamp.getD
              (mineTimestamp b.chain.latest_block.header.timestamp
                (clock 0)) := rfl
        rw [h0, hpbts]
        rfl
      have hmonoB : List.Chain'
          (fun x y => x.header.timestamp < y.header.timestamp)
          b.chain.blocks :=
        (List.chain'_map (fun (blk : Block) => blk.header.timestamp)).mp
          hmono
      have hmono1 : List.Chain'
          (fun x y => x.header.timestamp < y.header.timestamp)
          (prune255 (b.chain.blocks ++ [minedBlock E b pb (clock 0)])) := by
        apply chain'_prune
        apply chain'_concat hmonoB
        intro x hx
        have hne : b.chain.blocks ≠ [] := by
          intro hnil
          rw [hnil] at hx
          simp at hx
        rw [getLast?_eq_latest b.chain hne] at hx
        have hxl : b.chain.latest_block = x := by simpa using hx
        subst hxl
        rw [hblkts]
        exact mineTimestamp_gt _ _
      refine ih (openedBackend E (minedBackend E b pb (clock 0)))
        (fun i => clock (i + 1)) b' hs' ?_ ?_ hr
      · rfl
      · show List.Chain' (· < ·)
          ((prune255 (b.chain.blocks ++ [minedBlock E b pb (clock 0)])).map
            (fun blk => blk.header.timestamp))
        exact (List.chain'_map
          (fun (blk : Block) => blk.header.timestamp)).mpr hmono1

/-- C10: when the pending block's timestamp was never set via
`time_travel`, mining assigns it `parent_timestamp + 1` when the parent
header's timestamp is at least the wall clock, and the wall clock
otherwise; consequently, whenever a `mine_blocks` run succeeds on a
chain mined without `time_travel` (strictly increasing header timestamps
so far, pending timestamp unset), header timestamps remain strictly
increasing from block to block afterwards. -/
theorem mining_timestamp_rule_and_monotonicity (E : Ext) (b : Backend)
    (n : Nat) (clock : Nat → Nat) (b' : Backend) (hs : List Nat)
    (pb : PendingBlock) (hpb : b.pending = some pb)
    (hts : pb.header.timestamp = none)
    (hmono : List.Chain' (· < ·)
      (b.chain.blocks.map (fun blk => blk.header.timestamp)))
    (hrun : mine_blocks E b n clock = .ok (b', hs)) :
    (minedBlock E b pb (clock 0)).header.timestamp =
      (if b.chain.latest_block.header.timestamp ≥ clock 0
       then b.chain.latest_block.header.timestamp + 1
       else clock 0) ∧
    List.Chain' (· < ·)
      (b'.chain.blocks.map (fun blk => blk.header.timestamp)) := by
  constructor
  · have h0 : (minedBlock E b pb (clock 0)).header.timestamp =
        pb.header.timestamp.getD
          (mineTimestamp b.chain.latest_block.header.timestamp
            (clock 0)) := rfl
    rw [h0, hts]
    rfl
  · exact mine_blocks_timestamps_trace E n b clock b' hs
      (by rw [hpb]; simp [hts]) hmono hrun

set_option maxRecDepth 40000 in
/-- Witness for C10 at a concrete input: three blocks mined on a fresh
genesis backend with a wall clock that is first behind, then ahead of
the parent timestamps. -/
theorem mining_timestamp_rule_witness :
    (initBackend extW 1000).pending = some pbG ∧
    pbG.header.timestamp = none ∧
    mine_blocks extW (initBackend extW 1000) 3 (fun i => 500 * i) =
      .ok (mineW3.1, mineW3.2) ∧
    ((minedBlock extW (initBackend extW 1000) pbG
        ((fun i => 500 * i) 0)).header.timestamp =
      (if (initBackend extW 1000).chain.latest_block.header.timestamp ≥
          (fun i => 500 * i) 0
       then (initBackend extW 1000).chain.latest_block.header.timestamp + 1
       else (fun i => 500 * i) 0) ∧
     List.Chain' (· < ·)
       (mineW3.1.chain.blocks.map (fun blk => blk.header.timestamp))) := by
  refine ⟨rfl, rfl, rfl, ?_⟩
  exact mining_timestamp_rule_and_monotonicity extW (initBackend extW 1000)
    3 (fun i => 500 * i) mineW3.1 mineW3.2 pbG rfl rfl
    (List.chain'_singleton 1000) rfl

--------------------------------------------------------------------------
-- C1: the mining loop excludes failing transactions
--------------------------------------------------------------------------

/-- C1 (code bug): during mining of the pending block, every buffered
transaction whose execution raises a recoverable execution-layer
exception — a failing `check_transaction` inside the environment
builder, an exception from `process_transaction`, or a blob transaction
whose accumulated blob gas exceeds the per-block ceiling (last conjunct
but one) — is excluded from the mined block's accounting: no entry for
it in the transactions trie or the receipts trie, the block's gas used
accounts only for included transactions (it equals the cumulative gas of
the last included receipt), and every buffered transaction is still
processed (excluded or included).  But the claim's "the block still
mines successfully" is FALSE of the code: the body handed to
`fork.state_transition` is `tuple(block["transactions"])` — still
containing the dropped transaction — while the header roots were
computed without it, so `state_transition` rejects the block and
`_mine_pending_block` raises `InvalidBlock` instead of mining (and had
it not, the back-fill loop's `receipts_map[tx_hash]` lookup would raise
`KeyError` on the dropped transaction). -/
theorem mining_excludes_failed_transactions (E : Ext) (b : Backend)
    (pb : PendingBlock) (now : Nat) (j : Nat)
    (hpb : b.pending = some pb)
    (hj : j ∈ (scratchOut E b (resolvedPending b pb now) now).excluded) :
    (scratchOut E b (resolvedPending b pb now) now).transactions_trie.lookup
      j = none ∧
    (scratchOut E b (resolvedPending b pb now) now).receipts_trie.lookup j
      = none ∧
    blockGasUsed (resolvedPending b pb now)
        (scratchOut E b (resolvedPending b pb now) now) =
      (((scratchOut E b (resolvedPending b pb now)
          now).receipts_trie.getLast?).map (fun e => e.2.2)).getD 0 ∧
    (∀ k, k < pb.transactions.length →
      k ∈ (scratchOut E b (resolvedPending b pb now) now).excluded ∨
      ((scratchOut E b (resolvedPending b pb now)
          now).transactions_trie.lookup k).isSome) ∧
    (∀ (acc : BodyAcc) (i : Nat) (tx : Tx) (st : EState) (g : Nat)
        (lg : List Nat),
      (∃ envp, synthetic_tx_environment E
          { b with pending := some (resolvedPending b pb now) } tx
          (some acc.state) none now = .ok envp) →
      E.procTx acc.state tx = some (st, g, lg) →
      MAX_BLOB_GAS_PER_BLOCK < acc.blob_gas_used + E.blobGas tx →
      bodyStep E { b with pending := some (resolvedPending b pb now) }
          (resolvedPending b pb now).header.gas_limit now acc (i, tx) =
        { acc with state := st,
                   blob_gas_used := acc.blob_gas_used + E.blobGas tx,
                   excluded := acc.excluded ++ [i] }) ∧
    mine_pending_block E b now =
      .error (.ethereumException "InvalidBlock") := by
  have hlookups := bodyFold_lookup_none E
    { b with pending := some (resolvedPending b pb now) }
    (resolvedPending b pb now).header.gas_limit now
    ((resolvedPending b pb now).transactions.enum)
    (initBody E { b with pending := some (resolvedPending b pb now) }
      (resolvedPending b pb now))
    (fun j' hj' => absurd hj' (List.not_mem_nil j'))
    (fun p _ => ⟨List.not_mem_nil _, rfl, rfl⟩)
    (List.nodup_enum_map_fst _) j hj
  refine ⟨hlookups.1, hlookups.2, ?_, ?_, ?_, ?_⟩
  · exact bodyFold_gas E
      { b with pending := some (resolvedPending b pb now) }
      (resolvedPending b pb now).header.gas_limit now
      ((resolvedPending b pb now).transactions.enum)
      (initBody E { b with pending := some (resolvedPending b pb now) }
        (resolvedPending b pb now))
      (by simp [initBody])
  · intro k hk
    have hmem : (k, pb.transactions[k]) ∈ pb.transactions.enum :=
      List.mk_mem_enum_iff_getElem?.mpr (List.getElem?_eq_getElem hk)
    exact bodyFold_coverage E
      { b with pending := some (resolvedPending b pb now) }
      (resolvedPending b pb now).header.gas_limit now
      ((resolvedPending b pb now).transactions.enum)
      (initBody E { b with pending := some (resolvedPending b pb now) }
        (resolvedPending b pb now))
      (k, pb.transactions[k]) hmem
  · intro acc i tx st g lg hsynth hproc hblob
    obtain ⟨envp, hs⟩ := hsynth
    show bodyStep _ _ _ _ _ _ = _
    rw [bodyStep, hs, hproc]
    simp only [hblob, if_true]
  · rw [mine_pending_block_eq E b now pb hpb,
      if_pos (List.ne_nil_of_mem hj)]

/-- Witness for C1 at a concrete input: the fresh genesis backend whose
pending block buffers a normal transaction followed by the 7-blob
transaction `100`; the blob transaction (index 1) lands in the excluded
list, has no trie entries, the block's gas used equals the single
included receipt's cumulative gas, and `_mine_pending_block` raises
`InvalidBlock` instead of mining the block. -/
theorem mining_excludes_failed_transactions_witness :
    bW1.pending = some pbW1 ∧
    1 ∈ (scratchOut extW bW1 (resolvedPending bW1 pbW1 500) 500).excluded ∧
    (scratchOut extW bW1 (resolvedPending bW1 pbW1 500)
        500).transactions_trie.lookup 1 = none ∧
    (scratchOut extW bW1 (resolvedPending bW1 pbW1 500)
        500).receipts_trie.lookup 1 = none ∧
    blockGasUsed (resolvedPending bW1 pbW1 500)
        (scratchOut extW bW1 (resolvedPending bW1 pbW1 500) 500) =
      (((scratchOut extW bW1 (resolvedPending bW1 pbW1 500)
          500).receipts_trie.getLast?).map (fun e => e.2.2)).getD 0 ∧
    mine_pending_block extW bW1 500 =
      .error (.ethereumException "InvalidBlock") := by
  have hpb : bW1.pending = some pbW1 := rfl
  have hj : 1 ∈ (scratchOut extW bW1 (resolvedPending bW1 pbW1 500)
      500).excluded := by decide
  obtain ⟨h1, h2, h3, _, _, h6⟩ :=
    mining_excludes_failed_transactions extW bW1 pbW1 500 1 hpb hj
  exact ⟨hpb, hj, h1, h2, h3, h6⟩

--------------------------------------------------------------------------
-- C4: call never mutates chain state; revert surfacing
--------------------------------------------------------------------------

/-- C4: `call(tx, block_number)` never mutates the chain — for every
backend, transaction, block-number argument and message-call semantics,
the `Chain` (blocks, live state and chain id) afterwards is the one
before.  When the callee reverts with empty output the raised
`TransactionFailed` carries exactly the message
"Function has been reverted."; when the revert carries a payload the
message is `str(evm.output)` of that payload; any other EVM error is
also raised as `TransactionFailed`.  (In the historical branch `call`
executes directly against the stored snapshot and a successful message
commits into it — that touches only the snapshot index, never the
`Chain`.) -/
theorem call_preserves_chain_and_reverts (E : Ext) (b : Backend) (tx : Tx)
    (block_number : BlockId) (now : Nat) :
    (call E b tx block_number now).2.chain = b.chain ∧
    (∀ env aliased,
      get_synthetic_env_for_block_number E b tx block_number now =
        .ok (env, aliased) →
      (∀ st, E.procMsg env.state tx = (st, [], some .revert) →
        (call E b tx block_number now).1 =
          .error (.transactionFailed "Function has been reverted.")) ∧
      (∀ st output, output ≠ [] →
        E.procMsg env.state tx = (st, output, some .revert) →
        (call E b tx block_number now).1 =
          .error (.transactionFailed (E.reprOutput output))) ∧
      (∀ st output msg,
        E.procMsg env.state tx = (st, output, some (.otherErr msg)) →
        (call E b tx block_number now).1 =
          .error (.transactionFailed msg))) := by
  have hcore : ∀ env aliased,
      (callWithEnv E b tx env aliased).2.chain = b.chain := by
    intro env aliased
    unfold callWithEnv
    rcases hm : E.procMsg env.state tx with ⟨st, output, evmError⟩
    cases aliased with
    | none =>
        cases evmError with
        | none => rfl
        | some err =>
          cases err with
          | revert => by_cases hout : output = [] <;> simp [hout]
          | otherErr msg => rfl
    | some k =>
        cases evmError with
        | none => rfl
        | some err =>
          cases err with
          | revert => by_cases hout : output = [] <;> simp [hout]
          | otherErr msg => rfl
  constructor
  · unfold call
    cases hs : get_synthetic_env_for_block_number E b tx block_number now with
    | error e => rfl
    | ok envp =>
      obtain ⟨env, aliased⟩ := envp
      exact hcore env aliased
  · intro env aliased hok
    have hcall : call E b tx block_number now = callWithEnv E b tx env aliased := by
      unfold call
      rw [hok]
    refine ⟨?_, ?_, ?_⟩
    · intro st hm
      rw [hcall]
      unfold callWithEnv
      rw [hm]
      cases aliased <;> rfl
    · intro st output hne hm
      rw [hcall]
      unfold callWithEnv
      rw [hm]
      cases aliased <;> simp [hne]
    · intro st output msg hm
      rw [hcall]
      unfold callWithEnv
      rw [hm]

/-- Witness for C4 at a concrete input: calling a transaction on the
fresh genesis backend with the always-revert-empty message semantics of
`extW` raises `TransactionFailed("Function has been reverted.")` and
leaves the chain unchanged. -/
theorem call_preserves_chain_witness :
    (call extW (initBackend extW 1000) 7 .latest 99).1 =
      .error (.transactionFailed "Function has been reverted.") ∧
    (call extW (initBackend extW 1000) 7 .latest 99).2.chain =
      (initBackend extW 1000).chain := by
  refine ⟨?_, (call_preserves_chain_and_reverts extW (initBackend extW 1000)
    7 .latest 99).1⟩
  exact (((call_preserves_chain_and_reverts extW (initBackend extW 1000)
    7 .latest 99).2 _ _ rfl).1 _ rfl)

--------------------------------------------------------------------------
-- C6: historical synthetic environments use the wrong timestamp
--------------------------------------------------------------------------

/-- C6: contrary to the claim, a synthetic execution environment pinned
to the previously mined block 1 (whose header timestamp is 1000) carries
the *wall-clock* time 5000, not the header's 1000 — the historical
branch stores the header timestamp under the dict key "time" but the
environment reads `.get("timestamp", int(time.time()))`, so the default
wall clock always wins.  Additionally, pinning to block 0 yields
environment block number 2 (the head), because
`block_number or head_number` treats 0 as falsy.  The environment's
other fields (here `coinbase`, `gas_limit`, `base_fee_per_gas`) do come
from block k's header. -/
theorem historical_env_wrong_time_and_number :
    ((synthetic_tx_environment extW bC6 7 none (some 1) 5000).map
      (fun p => (p.1.time, p.1.number))) = .ok (some 5000, 1) ∧
    (bC6.chain.blocks.get? 1).map (fun blk => blk.header.timestamp) =
      some 1000 ∧
    some (5000 : Nat) ≠ some (1000 : Nat) ∧
    ((synthetic_tx_environment extW bC6 7 none (some 0) 5000).map
      (fun p => p.1.number)) = .ok 2 ∧
    (bC6.chain.blocks.get? 0).map (fun blk => blk.header.number) = some 0 ∧
    ((synthetic_tx_environment extW bC6 7 none (some 1) 5000).map
      (fun p => (p.1.coinbase, p.1.gas_limit, p.1.base_fee_per_gas))) =
      .ok (0, GENESIS_GAS_LIMIT, 1000000000) :=
  ⟨rfl, rfl, by decide, rfl, rfl, rfl⟩

--------------------------------------------------------------------------
-- C7: reset_to_genesis
--------------------------------------------------------------------------

/-- C7: on a *fresh* construction the claim's facts hold — head number
0, every default account with balance `10 ** 18` and nonce 0, the
genesis snapshot recorded.  But `reset_to_genesis` after mining
contradicts the claim: the pending-block guard of
`_build_new_pending_block` fires (stale pending number 2 against the new
head 0) and raises `ValidationError`, and the state-snapshot index is
never cleared, so it still holds the stale entry for block 1 — not
"exactly one entry" — regardless of the raised error. -/
theorem reset_to_genesis_after_mining_fails :
    (initBackend extW 1000).chain.latest_block.header.number = 0 ∧
    (∀ a ∈ default_account_addresses,
      get_balance (initBackend extW 1000) a .latest = 10 ^ 18 ∧
      get_nonce (initBackend extW 1000) a .latest = 0) ∧
    (initBackend extW 1000).state_history =
      [(0, generate_genesis_state)] ∧
    (mine_blocks extW (initBackend extW 1000) 1 (fun _ => 500)).map
      (fun p => p.1) = .ok bmC7 ∧
    (reset_to_genesis extW bmC7 1000).2 = some (.validationError
      "Cannot build a new pending block until the current pending block has been included in the chain.") ∧
    ((reset_to_genesis extW bmC7 1000).1.state_history.lookup 1).isSome
      = true ∧
    ((reset_to_genesis extW bmC7 1000).1.state_history.lookup 0) =
      some generate_genesis_state ∧
    (reset_to_genesis extW bmC7 1000).1.state_history.length = 2 :=
  ⟨rfl, by decide, rfl, rfl, rfl, rfl, rfl, rfl⟩

--------------------------------------------------------------------------
-- C9: get_block_by_hash only sees the last 256 hashes
--------------------------------------------------------------------------

theorem chain'_of_chainB {α : Type} (f : α → α → Bool) (R : α → α → Prop)
    (hf : ∀ x y, f x y = true → R x y) :
    ∀ l, chainB f l = true → List.Chain' R l := by
  intro l
  induction l with
  | nil => intro _; exact List.chain'_nil
  | cons x t ih =>
    cases t with
    | nil => intro _; exact List.chain'_singleton x
    | cons y t2 =>
      intro h
      simp only [chainB, Bool.and_eq_true] at h
      rw [List.chain'_cons]
      exact ⟨hf x y h.1, ih h.2⟩

/-- Along a parent-linked list of blocks, the parent hash of any block in
the tail is the header hash of some block of the list. -/
theorem parent_of_tail_mem (E : Ext) :
    ∀ (l : List Block),
    List.Chain' (fun x y => y.header.parent_hash = E.hashHeader x.header) l →
    ∀ x ∈ l.tail.map (fun blk => blk.header.parent_hash),
      ∃ bx ∈ l, x = E.hashHeader bx.header := by
  intro l
  induction l with
  | nil => intro _ x hx; simp at hx
  | cons a l ih =>
    intro hchain x hx
    cases l with
    | nil => simp at hx
    | cons c t =>
      rw [List.chain'_cons] at hchain
      obtain ⟨hac, hct⟩ := hchain
      simp only [List.tail_cons, List.map_cons, List.mem_cons] at hx
      rcases hx with hx | hx
      · exact ⟨a, List.mem_cons_self _ _, by rw [hx, hac]⟩
      · obtain ⟨bx, hbx, hbxe⟩ := ih hct x (by simpa using hx)
        exact ⟨bx, List.mem_cons_of_mem _ hbx, hbxe⟩

set_option maxRecDepth 8000 in
/-- Every hash `get_last_256_block_hashes` produces is the header hash
of a block among the last 256 blocks of the chain. -/
theorem get_last_256_mem (E : Ext) (blocks : List Block)
    (hlink : List.Chain'
      (fun x y => y.header.parent_hash = E.hashHeader x.header) blocks)
    (hlong : 256 ≤ blocks.length) :
    ∀ x ∈ get_last_256_block_hashes E blocks,
      ∃ bx ∈ blocks.drop (blocks.length - 256), x = E.hashHeader bx.header := by
  intro x hx
  unfold get_last_256_block_hashes at hx
  have hdd : blocks.drop (blocks.length - 255) =
      (blocks.drop (blocks.length - 256)).tail := by
    have h1 : blocks.length - 255 = (blocks.length - 256) + 1 := by omega
    rw [h1, ← List.drop_drop, List.drop_one]
  have hsub : (blocks.drop (blocks.length - 256)).tail ⊆
      blocks.drop (blocks.length - 256) :=
    List.tail_subset _
  have hlink' : List.Chain'
      (fun x y => y.header.parent_hash = E.hashHeader x.header)
      (blocks.drop (blocks.length - 256)) :=
    List.Chain'.suffix hlink (List.drop_suffix _ _)
  cases hlast : (blocks.drop (blocks.length - 255)).getLast? with
  | none =>
      rw [hlast] at hx
      simp at hx
  | some lastB =>
      rw [hlast] at hx
      rcases List.mem_append.mp hx with hx1 | hx2
      · rw [hdd] at hx1
        exact parent_of_tail_mem E _ hlink' x hx1
      · simp only [List.mem_singleton] at hx2
        refine ⟨lastB, ?_, hx2⟩
        have hmem : lastB ∈ blocks.drop (blocks.length - 255) := by
          have hne : blocks.drop (blocks.length - 255) ≠ [] := by
            intro hnil
            rw [List.getLast?_eq_none_iff.mpr hnil] at hlast
            exact Option.noConfusion hlast
          rw [List.getLast?_eq_getLast_of_ne_nil hne] at hlast
          have := List.getLast_mem hne
          rw [Option.some_inj.mp hlast] at this
          exact this
        rw [hdd] at hmem
        exact hsub hmem

/-- When no non-zero entry of the scanned hash list matches the target,
the lookup loop of `get_block_by_hash` raises `BlockNotFound`. -/
theorem findBlockByHash_miss (E : Ext) (blocks : List Block) (target : Nat) :
    ∀ l : List (Nat × Nat), (∀ p ∈ l, p.2 = ZERO_HASH32 ∨ p.2 ≠ target) →
    findBlockByHash E blocks target l =
      .error (.blockNotFound "No block found for block hash.") := by
  intro l
  induction l with
  | nil => intro _; rfl
  | cons p rest ih =>
    intro h
    obtain ⟨i, bh⟩ := p
    rcases h (i, bh) (List.mem_cons_self _ _) with h0 | hne
    · unfold findBlockByHash
      simp only at h0
      rw [if_pos h0]
      exact ih (fun q hq => h q (List.mem_cons_of_mem _ hq))
    · unfold findBlockByHash
      simp only at hne
      by_cases hz : bh = ZERO_HASH32
      · rw [if_pos hz]
        exact ih (fun q hq => h q (List.mem_cons_of_mem _ hq))
      · rw [if_neg hz, if_neg hne]
        exact ih (fun q hq => h q (List.mem_cons_of_mem _ hq))

/-- C9: `get_block_by_hash` finds a block only if its hash is among the
last 256 block hashes reachable from the head: a block lying more than
256 blocks behind the head (with contiguous numbering, parent links and
collision-free header hashes) yields `BlockNotFound`, although the block
is still present in `Chain.blocks`. -/
theorem get_block_by_hash_deep_history (E : Ext) (b : Backend) (m : Nat)
    (blk : Block)
    (_hmap : b.chain.blocks.map (fun x => x.header.number) =
      List.range b.chain.blocks.length)
    (hlen : b.chain.latest_block.header.number + 1 = b.chain.blocks.length)
    (hget : b.chain.blocks.get? m = some blk)
    (hfar : m + 257 ≤ b.chain.latest_block.header.number)
    (hlink : List.Chain'
      (fun x y => y.header.parent_hash = E.hashHeader x.header)
      b.chain.blocks)
    (hnodup : (b.chain.blocks.map (fun x => E.hashHeader x.header)).Nodup) :
    get_block_by_hash E b (E.hashHeader blk.header) =
      .error (.blockNotFound "No block found for block hash.") ∧
    blk ∈ b.chain.blocks := by
  have hL : 258 ≤ b.chain.blocks.length := by omega
  have hmlt : m < b.chain.blocks.length - 256 := by omega
  have hmem_blk : blk ∈ b.chain.blocks := List.get?_mem hget
  have hmem_take : blk ∈ b.chain.blocks.take (b.chain.blocks.length - 256) := by
    have htake : (b.chain.blocks.take (b.chain.blocks.length - 256)).get? m =
        some blk := by
      rw [List.get?_take hmlt]
      exact hget
    exact List.get?_mem htake
  have hnd : b.chain.blocks.Nodup := hnodup.of_map
  have hdisj : ∀ a ∈ b.chain.blocks.take (b.chain.blocks.length - 256),
      a ∉ b.chain.blocks.drop (b.chain.blocks.length - 256) := by
    have hsplit := List.take_append_drop
      (b.chain.blocks.length - 256) b.chain.blocks
    rw [← hsplit] at hnd
    exact (List.nodup_append.mp hnd).2.2
  refine ⟨?_, hmem_blk⟩
  unfold get_block_by_hash
  refine findBlockByHash_miss E _ _ _ ?_
  intro p hp
  right
  obtain ⟨i, x⟩ := p
  have hx : x ∈ get_last_256_block_hashes E b.chain.blocks := by
    have := List.mk_mem_enum_iff_getElem?.mp hp
    exact List.getElem?_mem this
  obtain ⟨bx, hbx_mem, hbx_eq⟩ :=
    get_last_256_mem E b.chain.blocks hlink (by omega) x hx
  simp only
  rw [hbx_eq]
  intro heq
  have hbxblk : bx = blk :=
    List.inj_on_of_nodup_map hnodup
      (List.drop_subset _ _ hbx_mem) hmem_blk heq
  rw [hbxblk] at hbx_mem
  exact hdisj blk hmem_take hbx_mem

set_option maxRecDepth 40000 in
/-- Witness for C9 at a concrete input: in a 258-block chain, looking up
the hash of block 0 (257 blocks behind the head) raises `BlockNotFound`
although block 0 is in `Chain.blocks`. -/
theorem get_block_by_hash_deep_history_witness :
    get_block_by_hash extW bC9
        (extW.hashHeader ({ header := mkHeader 0 1000,
                            transactions := [] } : Block).header) =
      .error (.blockNotFound "No block found for block hash.") ∧
    ({ header := mkHeader 0 1000, transactions := [] } : Block) ∈
      bC9.chain.blocks := by
  have hlink : List.Chain'
      (fun x y => y.header.parent_hash = extW.hashHeader x.header)
      bC9.chain.blocks := by
    refine chain'_of_chainB
      (fun (x y : Block) =>
        decide (y.header.parent_hash = extW.hashHeader x.header)) _
      (fun x y h => of_decide_eq_true h) _ ?_
    rfl
  have hchain : List.Chain' (· < ·)
      (bC9.chain.blocks.map (fun x => extW.hashHeader x.header)) := by
    refine chain'_of_chainB (fun a b => decide (a < b)) _
      (fun a b h => of_decide_eq_true h) _ ?_
    rfl
  have hnodup : (bC9.chain.blocks.map
      (fun x => extW.hashHeader x.header)).Nodup :=
    (List.chain'_iff_pairwise.mp hchain).imp (fun h => Nat.ne_of_lt h)
  exact get_block_by_hash_deep_history extW bC9 0
    { header := mkHeader 0 1000, transactions := [] }
    (by decide) (by decide) (by decide) (by decide) hlink hnodup

end EELS
